import Mathlib

/-!
Verification development for the pop-ups.dev embeddable popup SDK.

The repository is a browser widget that fetches popup configurations from a
remote API, decides whether / when / how often each popup is shown (device
filter, frequency-capping storage gate, trigger scheduler), normalizes the
configuration against type defaults and site branding, and hands the result
to a renderer.

This file gives a shallow embedding of those components, translated function
by function from the JavaScript sources:
  * the frequency-capping storage gate (`shouldShowPopup`, `recordPopupShown`
    and their helpers, from the frequency module);
  * the trigger scheduler (`setupTrigger` and the four arming strategies,
    from the triggers module) as an explicit event-driven state machine;
  * the device filter (`getDeviceType`, `isDeviceAllowed` from device.js);
  * the configuration normalizer (`deepMerge`, `getDefaults`,
    `applyBranding`, `mergeWithDefaults` from defaults.js) over a JSON value
    type, plus a heap-based semantics used to reason about in-place mutation
    of caller-supplied objects;
  * the orchestrator boundary (`fetchPopupConfigs`, `processPopup`).

Browser state (session/local storage, the clock, viewport width, scroll
metrics, touch capability) is passed explicitly.  Fallible JavaScript code
(storage access throwing, property access on `undefined`) is modelled with
`Except`; JavaScript numbers are modelled as `Int`/`Nat`/`Rat` as
appropriate; storage holds strings, exactly as the browser APIs do.
-/

namespace PopupsDev

/-! ### Association lists

Browser storage and JavaScript objects are keyed collections; both are
modelled as association lists with update-in-place semantics (`assocSet`
replaces the value of an existing key, keeping its position, and appends
otherwise, matching JavaScript property update order). -/

def assocGet {α : Type} : List (String × α) → String → Option α
  | [], _ => none
  | (k1, v1) :: rest, k => if k1 == k then some v1 else assocGet rest k

def assocSet {α : Type} : List (String × α) → String → α → List (String × α)
  | [], k, v => [(k, v)]
  | (k1, v1) :: rest, k, v =>
      if k1 == k then (k1, v) :: rest else (k1, v1) :: assocSet rest k v

theorem assocGet_assocSet_self {α : Type} (l : List (String × α)) (k : String) (v : α) :
    assocGet (assocSet l k v) k = some v := by
  induction l with
  | nil => simp [assocSet, assocGet]
  | cons p rest ih =>
      obtain ⟨k1, v1⟩ := p
      by_cases h : k1 = k
      · subst h; simp [assocSet, assocGet]
      · simp [assocSet, assocGet, beq_iff_eq, h, ih]

theorem assocGet_assocSet_ne {α : Type} (l : List (String × α)) (k k2 : String) (v : α)
    (h : k2 ≠ k) : assocGet (assocSet l k v) k2 = assocGet l k2 := by
  induction l with
  | nil => simp [assocSet, assocGet, beq_iff_eq, Ne.symm h]
  | cons p rest ih =>
      obtain ⟨k1, v1⟩ := p
      by_cases h1 : k1 = k
      · subst h1
        simp [assocSet, assocGet, beq_iff_eq, Ne.symm h]
      · by_cases h2 : k1 = k2
        · subst h2; simp [assocSet, assocGet, beq_iff_eq, h1]
        · simp [assocSet, assocGet, beq_iff_eq, h1, h2, ih]

theorem assocGet_isSome_assocSet {α : Type} (l : List (String × α)) (k k2 : String) (v : α)
    (h : (assocGet l k2).isSome) : (assocGet (assocSet l k v) k2).isSome := by
  by_cases hk : k2 = k
  · subst hk; simp [assocGet_assocSet_self]
  · rwa [assocGet_assocSet_ne l k k2 v hk]

/-! ### Decimal printing and parsing

`recordPopupShown` stores `Date.now().toString()` and the window checks read
it back with `parseInt(lastShown, 10)`.  `natToDecString` models the decimal
rendering of a (nonnegative integer) JavaScript number and `jsParseIntDec`
models radix-10 `parseInt`: skip leading whitespace, optional sign, then the
longest digit run; no digits gives `NaN`, modelled as `none`. -/

def natToDigitChar (d : Nat) : Char :=
  match d with
  | 0 => '0' | 1 => '1' | 2 => '2' | 3 => '3' | 4 => '4'
  | 5 => '5' | 6 => '6' | 7 => '7' | 8 => '8' | _ => '9'

def natToDecRev (n : Nat) : List Char :=
  if h : n < 10 then [natToDigitChar n]
  else natToDigitChar (n % 10) :: natToDecRev (n / 10)
termination_by n
decreasing_by
  exact Nat.div_lt_self (by omega) (by omega)

def natToDecString (n : Nat) : String :=
  String.mk (natToDecRev n).reverse

def digitVal (c : Char) : Nat := c.toNat - 48

def decDigitsVal (l : List Char) : Nat :=
  l.foldl (fun a c => 10 * a + digitVal c) 0

def isJsSpace (c : Char) : Bool :=
  c == ' ' || c == '\t' || c == '\n' || c == '\r'

/-- Consume an optional leading sign, returning (isNegative, remaining). -/
def stripSign : List Char → Bool × List Char
  | [] => (false, [])
  | c :: r =>
      if c == '-' then (true, r)
      else if c == '+' then (false, r)
      else (false, c :: r)

def jsParseIntDec (s : String) : Option Int :=
  let cs := s.data.dropWhile isJsSpace
  let sr := stripSign cs
  let ds := sr.2.takeWhile Char.isDigit
  if ds.isEmpty then none
  else if sr.1 then some (-(decDigitsVal ds : Int))
  else some (decDigitsVal ds : Int)

/-- Value of a digit list read least-significant-first. -/
def decValRev : List Char → Nat
  | [] => 0
  | c :: cs => digitVal c + 10 * decValRev cs

theorem digitVal_natToDigitChar {d : Nat} (h : d < 10) :
    digitVal (natToDigitChar d) = d := by
  interval_cases d <;> decide

theorem isDigit_natToDigitChar {d : Nat} (h : d < 10) :
    (natToDigitChar d).isDigit = true := by
  interval_cases d <;> decide

theorem decValRev_natToDecRev (n : Nat) : decValRev (natToDecRev n) = n := by
  induction n using Nat.strong_induction_on with
  | _ n ih =>
      rw [natToDecRev]
      by_cases h : n < 10
      · simp [h, decValRev, digitVal_natToDigitChar h]
      · have hd : n / 10 < n := Nat.div_lt_self (by omega) (by omega)
        simp only [h, dif_neg, not_false_iff]
        rw [decValRev, ih (n / 10) hd, digitVal_natToDigitChar (Nat.mod_lt n (by omega))]
        omega

theorem decDigitsVal_reverse (l : List Char) :
    decDigitsVal l.reverse = decValRev l := by
  induction l with
  | nil => simp [decDigitsVal, decValRev]
  | cons c cs ih =>
      rw [List.reverse_cons, decDigitsVal, List.foldl_append]
      simp only [List.foldl_cons, List.foldl_nil]
      rw [decValRev, ← ih, decDigitsVal]
      ring

theorem natToDecRev_all_digit (n : Nat) :
    ∀ c ∈ natToDecRev n, c.isDigit = true := by
  induction n using Nat.strong_induction_on with
  | _ n ih =>
      rw [natToDecRev]
      by_cases h : n < 10
      · simp only [h, dif_pos, List.mem_singleton]
        rintro c rfl
        exact isDigit_natToDigitChar h
      · have hd : n / 10 < n := Nat.div_lt_self (by omega) (by omega)
        simp only [h, dif_neg, not_false_iff, List.mem_cons]
        rintro c (rfl | hc)
        · exact isDigit_natToDigitChar (Nat.mod_lt n (by omega))
        · exact ih (n / 10) hd c hc

theorem natToDecRev_ne_nil (n : Nat) : natToDecRev n ≠ [] := by
  rw [natToDecRev]
  by_cases h : n < 10 <;> simp [h]

theorem isJsSpace_of_digit {c : Char} (h : c.isDigit = true) : isJsSpace c = false := by
  have hs : c ≠ ' ' := by rintro rfl; exact absurd h (by decide)
  have ht : c ≠ '\t' := by rintro rfl; exact absurd h (by decide)
  have hn : c ≠ '\n' := by rintro rfl; exact absurd h (by decide)
  have hr : c ≠ '\r' := by rintro rfl; exact absurd h (by decide)
  simp [isJsSpace, beq_eq_false_iff_ne, hs, ht, hn, hr]

theorem stripSign_of_digit {c : Char} (cs : List Char) (h : c.isDigit = true) :
    stripSign (c :: cs) = (false, c :: cs) := by
  have hm : c ≠ '-' := by rintro rfl; exact absurd h (by decide)
  have hp : c ≠ '+' := by rintro rfl; exact absurd h (by decide)
  simp [stripSign, beq_iff_eq, hm, hp]

theorem jsParseIntDec_natToDecString (n : Nat) :
    jsParseIntDec (natToDecString n) = some (n : Int) := by
  have hall : ∀ c ∈ (natToDecRev n).reverse, c.isDigit = true := by
    intro c hc
    exact natToDecRev_all_digit n c (List.mem_reverse.mp hc)
  obtain ⟨c0, cs, hcons⟩ : ∃ c0 cs, (natToDecRev n).reverse = c0 :: cs := by
    cases h : (natToDecRev n).reverse with
    | nil =>
        exfalso
        exact natToDecRev_ne_nil n (by simpa using congrArg List.reverse h)
    | cons c0 cs => exact ⟨c0, cs, rfl⟩
  have hc0 : c0.isDigit = true := hall c0 (by rw [hcons]; exact List.mem_cons_self c0 cs)
  have hdata : (natToDecString n).data = c0 :: cs := by
    simp [natToDecString, hcons]
  have htake : List.takeWhile Char.isDigit (c0 :: cs) = c0 :: cs := by
    rw [← hcons, List.takeWhile_eq_self_iff.mpr hall]
  have hval : decDigitsVal (c0 :: cs) = n := by
    rw [← hcons, decDigitsVal_reverse, decValRev_natToDecRev]
  unfold jsParseIntDec
  rw [hdata, List.dropWhile_cons, isJsSpace_of_digit hc0]
  simp only [Bool.false_eq_true, if_false, stripSign_of_digit cs hc0, htake, hval,
    List.isEmpty_cons]

theorem natToDecString_ne_empty (n : Nat) : natToDecString n ≠ "" := by
  unfold natToDecString
  intro h
  have : (natToDecRev n).reverse = [] := by
    have := congrArg String.data h
    simpa using this
  exact natToDecRev_ne_nil n (by simpa using congrArg List.reverse this)

/-! ### Storage gate (frequency capping)

Translated from the frequency module.  `Storage` is the browser's key/value
state: `sess` models `sessionStorage`, `locl` models `localStorage`.  The
browser can also make every storage operation throw (private browsing);
that failure mode is the explicit `avail` flag passed to each operation —
when `avail = false` every primitive read/write raises, and the `try`/
`catch` blocks of the source are modelled at exactly the places the source
has them.  The clock (`Date.now()`, epoch milliseconds) is the explicit
`now : Nat` argument. -/

structure Storage where
  sess : List (String × String)
  locl : List (String × String)
deriving DecidableEq, Repr

/-- `const STORAGE_PREFIX = 'popups_dev_'`. -/
def storageKeyBase : String := "popups_dev_"

def getSessionKey (popupId : String) : String := storageKeyBase ++ popupId ++ "_session"

def getTimestampKey (popupId : String) : String := storageKeyBase ++ popupId ++ "_last_shown"

def getLifetimeKey (popupId : String) : String := storageKeyBase ++ popupId ++ "_lifetime"

/-- `sessionStorage.getItem` / `localStorage.getItem`: `none` models a throw
(storage unavailable); `some none` models JavaScript `null` (key absent). -/
def storageGetItem (avail : Bool) (kvs : List (String × String)) (k : String) :
    Except String (Option String) :=
  if avail then .ok (assocGet kvs k) else .error "storage unavailable"

def storageSetItem (avail : Bool) (kvs : List (String × String)) (k v : String) :
    Except String (List (String × String)) :=
  if avail then .ok (assocSet kvs k v) else .error "storage unavailable"

/-- `hasShownThisSession` — reads the per-session flag; its own
`try { ... } catch { return false }` yields `false` when storage throws. -/
def hasShownThisSession (avail : Bool) (s : Storage) (popupId : String) : Bool :=
  match storageGetItem avail s.sess (getSessionKey popupId) with
  | .error _ => false
  | .ok none => false
  | .ok (some v) => v == "true"

/-- `markShownThisSession` — raw write, throws when storage is unavailable. -/
def markShownThisSession (avail : Bool) (s : Storage) (popupId : String) :
    Except String Storage :=
  (storageSetItem avail s.sess (getSessionKey popupId) "true").map
    (fun kvs => { s with sess := kvs })

/-- One day (`24 * 60 * 60 * 1000`) in milliseconds. -/
def oneDayMs : Int := 24 * 60 * 60 * 1000

/-- One week (`7 * 24 * 60 * 60 * 1000`) in milliseconds. -/
def oneWeekMs : Int := 7 * 24 * 60 * 60 * 1000

/-- `hasShownInLast24Hours` — catches storage errors, treats a missing or
empty value as "not shown" (`if (!lastShown) return false`), parses the
stored timestamp with `parseInt` (a NaN result makes the `<` comparison
false), and otherwise compares `now - lastShownTime < oneDay`. -/
def hasShownInLast24Hours (avail : Bool) (s : Storage) (popupId : String) (now : Nat) : Bool :=
  match storageGetItem avail s.locl (getTimestampKey popupId) with
  | .error _ => false
  | .ok none => false
  | .ok (some lastShown) =>
      if lastShown == "" then false
      else
        match jsParseIntDec lastShown with
        | none => false
        | some lastShownTime => decide ((now : Int) - lastShownTime < oneDayMs)

/-- `hasShownInLastWeek` — identical shape with a 7-day window. -/
def hasShownInLastWeek (avail : Bool) (s : Storage) (popupId : String) (now : Nat) : Bool :=
  match storageGetItem avail s.locl (getTimestampKey popupId) with
  | .error _ => false
  | .ok none => false
  | .ok (some lastShown) =>
      if lastShown == "" then false
      else
        match jsParseIntDec lastShown with
        | none => false
        | some lastShownTime => decide ((now : Int) - lastShownTime < oneWeekMs)

/-- `markShownWithTimestamp` — stores `Date.now().toString()`. -/
def markShownWithTimestamp (avail : Bool) (s : Storage) (popupId : String) (now : Nat) :
    Except String Storage :=
  (storageSetItem avail s.locl (getTimestampKey popupId) (natToDecString now)).map
    (fun kvs => { s with locl := kvs })

/-- `hasEverShown` — reads the permanent flag, catching storage errors. -/
def hasEverShown (avail : Bool) (s : Storage) (popupId : String) : Bool :=
  match storageGetItem avail s.locl (getLifetimeKey popupId) with
  | .error _ => false
  | .ok none => false
  | .ok (some v) => v == "true"

/-- `markShownForever` — raw write of the permanent flag. -/
def markShownForever (avail : Bool) (s : Storage) (popupId : String) :
    Except String Storage :=
  (storageSetItem avail s.locl (getLifetimeKey popupId) "true").map
    (fun kvs => { s with locl := kvs })

/-- `shouldShowPopup(popupId, frequencyConfig)` after the `cap` field has
been destructured; the dispatch on the cap string, including the legacy
aliases and the always-show default for unknown caps. -/
def shouldShowPopup (popupId : String) (cap : String) (avail : Bool) (s : Storage)
    (now : Nat) : Bool :=
  match cap with
  | "always" => true
  | "once_per_session" => !hasShownThisSession avail s popupId
  | "once_per_day" => !hasShownInLast24Hours avail s popupId now
  | "once_per_week" => !hasShownInLastWeek avail s popupId now
  | "once_ever" => !hasEverShown avail s popupId
  | "once_per_user_24h" => !hasShownInLast24Hours avail s popupId now
  | "once_lifetime" => !hasEverShown avail s popupId
  | _ => true

/-- The body of `recordPopupShown`'s `try` block: dispatch on the cap and
perform the corresponding raw write (which may throw).  `'always'` and
unknown caps perform no write. -/
def recordPopupShownRaw (popupId : String) (cap : String) (avail : Bool) (s : Storage)
    (now : Nat) : Except String Storage :=
  match cap with
  | "once_per_session" => markShownThisSession avail s popupId
  | "once_per_day" => markShownWithTimestamp avail s popupId now
  | "once_per_user_24h" => markShownWithTimestamp avail s popupId now
  | "once_per_week" => markShownWithTimestamp avail s popupId now
  | "once_ever" => markShownForever avail s popupId
  | "once_lifetime" => markShownForever avail s popupId
  | _ => .ok s

/-- `recordPopupShown(popupId, frequencyConfig)`: the whole switch sits in a
`try`/`catch` that swallows storage errors (logging a warning), so a failed
write leaves the state unchanged. -/
def recordPopupShown (popupId : String) (cap : String) (avail : Bool) (s : Storage)
    (now : Nat) : Storage :=
  match recordPopupShownRaw popupId cap avail s now with
  | .ok s2 => s2
  | .error _ => s

/-! Helper lemmas about recording followed by a window check. -/

theorem record_once_per_day_eq (popupId : String) (s : Storage) (t : Nat) :
    recordPopupShown popupId "once_per_day" true s t
      = { s with locl := assocSet s.locl (getTimestampKey popupId) (natToDecString t) } := rfl

theorem record_once_per_user_24h_eq (popupId : String) (s : Storage) (t : Nat) :
    recordPopupShown popupId "once_per_user_24h" true s t
      = { s with locl := assocSet s.locl (getTimestampKey popupId) (natToDecString t) } := rfl

theorem record_once_per_week_eq (popupId : String) (s : Storage) (t : Nat) :
    recordPopupShown popupId "once_per_week" true s t
      = { s with locl := assocSet s.locl (getTimestampKey popupId) (natToDecString t) } := rfl

theorem hasShownInLast24Hours_after_mark (s : Storage) (popupId : String) (t t2 : Nat) :
    hasShownInLast24Hours true
      { s with locl := assocSet s.locl (getTimestampKey popupId) (natToDecString t) }
      popupId t2
    = decide ((t2 : Int) - t < oneDayMs) := by
  simp [hasShownInLast24Hours, storageGetItem, assocGet_assocSet_self, beq_iff_eq,
    natToDecString_ne_empty t, jsParseIntDec_natToDecString]

theorem hasShownInLastWeek_after_mark (s : Storage) (popupId : String) (t t2 : Nat) :
    hasShownInLastWeek true
      { s with locl := assocSet s.locl (getTimestampKey popupId) (natToDecString t) }
      popupId t2
    = decide ((t2 : Int) - t < oneWeekMs) := by
  simp [hasShownInLastWeek, storageGetItem, assocGet_assocSet_self, beq_iff_eq,
    natToDecString_ne_empty t, jsParseIntDec_natToDecString]

/-- C1.  For every popup id, every storage state and every cap among
`once_per_session`, `once_per_day`, `once_per_user_24h`, `once_per_week`,
`once_ever`, `once_lifetime`: `recordPopupShown` immediately followed by
`shouldShowPopup` (same id/config, same clock value) returns `false`; and
for cap `always`, `shouldShowPopup` returns `true` in every storage state
(in particular after any sequence of `recordPopupShown` calls, and even
when storage is unavailable). -/
theorem record_then_shouldShow_blocks (popupId cap : String) (s : Storage) (now : Nat)
    (h : cap = "once_per_session" ∨ cap = "once_per_day" ∨ cap = "once_per_user_24h" ∨
         cap = "once_per_week" ∨ cap = "once_ever" ∨ cap = "once_lifetime") :
    shouldShowPopup popupId cap true (recordPopupShown popupId cap true s now) now = false
    ∧ ∀ (avail : Bool) (s2 : Storage) (now2 : Nat),
        shouldShowPopup popupId "always" avail s2 now2 = true := by
  refine ⟨?_, fun avail s2 now2 => rfl⟩
  rcases h with rfl | rfl | rfl | rfl | rfl | rfl
  · simp [shouldShowPopup, recordPopupShown, recordPopupShownRaw, markShownThisSession,
      storageSetItem, hasShownThisSession, storageGetItem, Except.map, assocGet_assocSet_self]
  · rw [record_once_per_day_eq]
    simp only [shouldShowPopup, hasShownInLast24Hours_after_mark]
    simp [oneDayMs]
  · rw [record_once_per_user_24h_eq]
    simp only [shouldShowPopup, hasShownInLast24Hours_after_mark]
    simp [oneDayMs]
  · rw [record_once_per_week_eq]
    simp only [shouldShowPopup, hasShownInLastWeek_after_mark]
    simp [oneWeekMs]
  · simp [shouldShowPopup, recordPopupShown, recordPopupShownRaw, markShownForever,
      storageSetItem, hasEverShown, storageGetItem, Except.map, assocGet_assocSet_self]
  · simp [shouldShowPopup, recordPopupShown, recordPopupShownRaw, markShownForever,
      storageSetItem, hasEverShown, storageGetItem, Except.map, assocGet_assocSet_self]

/-- Witness for C1 at a concrete input (cap `once_per_day`, empty storage,
clock 1000). -/
theorem record_then_shouldShow_blocks_witness :
    shouldShowPopup "promo" "once_per_day" true
      (recordPopupShown "promo" "once_per_day" true ⟨[], []⟩ 1000) 1000 = false :=
  (record_then_shouldShow_blocks "promo" "once_per_day" ⟨[], []⟩ 1000
    (Or.inr (Or.inl rfl))).1

/-- C6.  When every underlying storage operation throws (storage
unavailable), `shouldShowPopup` returns `true` (fails open) for every popup
id and every frequency cap, and `recordPopupShown` returns normally (its
`catch` swallows the error) leaving the storage state unchanged. -/
theorem storage_unavailable_fails_open (popupId cap : String) (s : Storage) (now : Nat) :
    shouldShowPopup popupId cap false s now = true
    ∧ recordPopupShown popupId cap false s now = s := by
  constructor
  · unfold shouldShowPopup
    split <;>
      simp [hasShownThisSession, hasShownInLast24Hours, hasShownInLastWeek, hasEverShown,
        storageGetItem]
  · have hraw : recordPopupShownRaw popupId cap false s now = .error "storage unavailable"
        ∨ recordPopupShownRaw popupId cap false s now = .ok s := by
      unfold recordPopupShownRaw
      split <;>
        simp [markShownThisSession, markShownWithTimestamp, markShownForever, storageSetItem,
          Except.map]
    rcases hraw with h | h <;> simp [recordPopupShown, h]

/-- C7.  For the time-windowed caps: after `recordPopupShown` at clock `t`,
`shouldShowPopup` at clock `t2` returns `false` whenever `t2 - t` is
strictly below the window (24h for `once_per_day`/`once_per_user_24h`, 7
days for `once_per_week`) and `true` whenever `t2 - t` is at least the
window. -/
theorem timed_window_gate (popupId : String) (s : Storage) (t t2 : Nat) :
    (∀ cap, cap = "once_per_day" ∨ cap = "once_per_user_24h" →
      (((t2 : Int) - t < oneDayMs →
          shouldShowPopup popupId cap true (recordPopupShown popupId cap true s t) t2 = false)
        ∧ (oneDayMs ≤ (t2 : Int) - t →
          shouldShowPopup popupId cap true (recordPopupShown popupId cap true s t) t2 = true)))
    ∧ (((t2 : Int) - t < oneWeekMs →
          shouldShowPopup popupId "once_per_week" true
            (recordPopupShown popupId "once_per_week" true s t) t2 = false)
        ∧ (oneWeekMs ≤ (t2 : Int) - t →
          shouldShowPopup popupId "once_per_week" true
            (recordPopupShown popupId "once_per_week" true s t) t2 = true)) := by
  constructor
  · rintro cap (rfl | rfl)
    · rw [record_once_per_day_eq]
      simp only [shouldShowPopup, hasShownInLast24Hours_after_mark]
      exact ⟨fun h => by simp [h], fun h => by simp [not_lt.mpr h]⟩
    · rw [record_once_per_user_24h_eq]
      simp only [shouldShowPopup, hasShownInLast24Hours_after_mark]
      exact ⟨fun h => by simp [h], fun h => by simp [not_lt.mpr h]⟩
  · rw [record_once_per_week_eq]
    simp only [shouldShowPopup, hasShownInLastWeek_after_mark]
    exact ⟨fun h => by simp [h], fun h => by simp [not_lt.mpr h]⟩

/-- Witness for C7 at concrete inputs: recording at clock 0, the day cap
blocks at `t2 = 86399999` (one millisecond before the 24h window elapses)
and allows again at `t2 = 86400000`. -/
theorem timed_window_gate_witness :
    shouldShowPopup "promo" "once_per_day" true
        (recordPopupShown "promo" "once_per_day" true ⟨[], []⟩ 0) 86399999 = false
    ∧ shouldShowPopup "promo" "once_per_day" true
        (recordPopupShown "promo" "once_per_day" true ⟨[], []⟩ 0) 86400000 = true := by
  have h1 := timed_window_gate "promo" ⟨[], []⟩ 0 86399999
  have h2 := timed_window_gate "promo" ⟨[], []⟩ 0 86400000
  exact ⟨(h1.1 "once_per_day" (Or.inl rfl)).1 (by norm_num [oneDayMs]),
    (h2.1 "once_per_day" (Or.inl rfl)).2 (by norm_num [oneDayMs])⟩

/-! ### Trigger scheduler

Translated from the triggers module.  Each call to `setupTrigger` arms one
strategy; the resulting closure state (pending animation frame, pending
timer, installed scroll listener, installed mouseleave listener, the
`hasTriggered` flag shared by the scroll and exit-intent handlers) is made
explicit in `TriggerState`, together with a count of callback invocations.
The environment then delivers events (`TriggerEvent`); `triggerStep` is the
reaction of the armed trigger to one event:

  * an animation frame runs a pending `requestAnimationFrame` callback once;
  * a timer expiry runs a pending `setTimeout` callback once;
  * a scroll event runs `handleScroll` when the scroll listener is
    installed, carrying the current `scrollHeight - innerHeight` and
    `scrollY` (JavaScript float arithmetic is modelled over `Rat`);
  * a mouseleave event runs the exit-intent handler when installed,
    carrying `clientY`.

`setupScrollTrigger` also runs `handleScroll` once synchronously before
installing the listener ("in case page is already scrolled"), and installs
the listener only if that check did not fire.  `setupExitIntentTrigger`
installs no listener on touch-capable devices. -/

structure TriggerState where
  pendingFrame : Bool
  pendingTimer : Bool
  scrollListener : Bool
  mouseListener : Bool
  hasTriggered : Bool
  fires : Nat
deriving DecidableEq, Repr

def initialTriggerState : TriggerState :=
  { pendingFrame := false, pendingTimer := false, scrollListener := false,
    mouseListener := false, hasTriggered := false, fires := 0 }

/-- `const currentPercent = scrollHeight > 0 ? (scrolled / scrollHeight) * 100 : 0`. -/
def scrollPercent (scrollHeight scrolled : Rat) : Rat :=
  if scrollHeight > 0 then scrolled / scrollHeight * 100 else 0

/-- The `handleScroll` closure of `setupScrollTrigger`: no-op once
`hasTriggered`; otherwise fire and self-remove the listener when the
computed percentage reaches the threshold. -/
def handleScroll (percentage sh y : Rat) (st : TriggerState) : TriggerState :=
  if st.hasTriggered then st
  else if scrollPercent sh y ≥ percentage then
    { st with hasTriggered := true, fires := st.fires + 1, scrollListener := false }
  else st

/-- `setupScrollTrigger(percentage, onTrigger)`: immediate check, then
install the scroll listener only if it did not fire. -/
def setupScrollTrigger (percentage sh y0 : Rat) (st : TriggerState) : TriggerState :=
  let st1 := handleScroll percentage sh y0 st
  if st1.hasTriggered then st1 else { st1 with scrollListener := true }

/-- `setupImmediateTrigger`: registers a `requestAnimationFrame` callback. -/
def setupImmediateTrigger (st : TriggerState) : TriggerState :=
  { st with pendingFrame := true }

/-- `setupDelayTrigger`: registers a `setTimeout` callback. -/
def setupDelayTrigger (st : TriggerState) : TriggerState :=
  { st with pendingTimer := true }

/-- `setupExitIntentTrigger`: installs the mouseleave listener only on
non-touch devices. -/
def setupExitIntentTrigger (isTouchDevice : Bool) (st : TriggerState) : TriggerState :=
  if isTouchDevice then st else { st with mouseListener := true }

/-- `setupTrigger(triggerConfig, onTrigger)`: dispatch on the trigger type,
falling back to `immediate` for unknown types. -/
def setupTrigger (ttype : String) (value : Rat) (isTouchDevice : Bool) (sh y0 : Rat) :
    TriggerState :=
  match ttype with
  | "immediate" => setupImmediateTrigger initialTriggerState
  | "time_delay" => setupDelayTrigger initialTriggerState
  | "scroll_percent" => setupScrollTrigger value sh y0 initialTriggerState
  | "exit_intent" => setupExitIntentTrigger isTouchDevice initialTriggerState
  | _ => setupImmediateTrigger initialTriggerState

inductive TriggerEvent where
  | frame
  | timerFire
  | scroll (sh y : Rat)
  | mouseLeave (clientY : Rat)
deriving DecidableEq, Repr

def triggerStep (percentage : Rat) (st : TriggerState) (e : TriggerEvent) : TriggerState :=
  match e with
  | .frame =>
      if st.pendingFrame then
        { st with pendingFrame := false, fires := st.fires + 1 }
      else st
  | .timerFire =>
      if st.pendingTimer then
        { st with pendingTimer := false, fires := st.fires + 1 }
      else st
  | .scroll sh y =>
      if st.scrollListener then handleScroll percentage sh y st else st
  | .mouseLeave clientY =>
      if st.mouseListener then
        if st.hasTriggered then st
        else if clientY ≤ 0 then
          { st with hasTriggered := true, fires := st.fires + 1, mouseListener := false }
        else st
      else st

def runTrigger (ttype : String) (value : Rat) (isTouchDevice : Bool) (sh y0 : Rat)
    (events : List TriggerEvent) : TriggerState :=
  events.foldl (triggerStep value) (setupTrigger ttype value isTouchDevice sh y0)

/-- Number of still-armed firing capabilities of a trigger state. -/
def armedCount (st : TriggerState) : Nat :=
  (if st.pendingFrame then 1 else 0) + (if st.pendingTimer then 1 else 0)
  + (if st.scrollListener && !st.hasTriggered then 1 else 0)
  + (if st.mouseListener && !st.hasTriggered then 1 else 0)

/-- The at-most-once invariant: invocations performed plus capabilities
still armed never exceed one. -/
def triggerInv (st : TriggerState) : Prop :=
  st.fires + armedCount st ≤ 1

theorem triggerStep_inv (percentage : Rat) (st : TriggerState) (e : TriggerEvent)
    (h : triggerInv st) : triggerInv (triggerStep percentage st e) := by
  obtain ⟨pf, pt, sl, ml, ht, n⟩ := st
  unfold triggerInv armedCount at h ⊢
  cases e <;>
    simp only [triggerStep, handleScroll] <;>
    split_ifs <;>
    simp_all <;>
    omega

theorem foldl_triggerStep_inv (percentage : Rat) (events : List TriggerEvent)
    (st : TriggerState) (h : triggerInv st) :
    triggerInv (events.foldl (triggerStep percentage) st) := by
  induction events generalizing st with
  | nil => exact h
  | cons e rest ih => exact ih _ (triggerStep_inv percentage st e h)

theorem setupTrigger_inv (ttype : String) (value : Rat) (isTouchDevice : Bool)
    (sh y0 : Rat) : triggerInv (setupTrigger ttype value isTouchDevice sh y0) := by
  unfold setupTrigger
  split
  · simp [setupImmediateTrigger, initialTriggerState, triggerInv, armedCount]
  · simp [setupDelayTrigger, initialTriggerState, triggerInv, armedCount]
  · unfold setupScrollTrigger handleScroll
    split_ifs <;> simp_all [triggerInv, armedCount, initialTriggerState]
  · unfold setupExitIntentTrigger
    split_ifs <;> simp [triggerInv, armedCount, initialTriggerState]
  · simp [setupImmediateTrigger, initialTriggerState, triggerInv, armedCount]

/-- A fully disarmed state is a fixpoint of `triggerStep`. -/
theorem triggerStep_disarmed (percentage : Rat) (st : TriggerState) (e : TriggerEvent)
    (hpf : st.pendingFrame = false) (hpt : st.pendingTimer = false)
    (hsl : st.scrollListener = false) (hml : st.mouseListener = false) :
    triggerStep percentage st e = st := by
  cases e <;> simp [triggerStep, hpf, hpt, hsl, hml]

theorem foldl_triggerStep_disarmed (percentage : Rat) (events : List TriggerEvent)
    (st : TriggerState)
    (hpf : st.pendingFrame = false) (hpt : st.pendingTimer = false)
    (hsl : st.scrollListener = false) (hml : st.mouseListener = false) :
    events.foldl (triggerStep percentage) st = st := by
  induction events with
  | nil => rfl
  | cons e rest ih => rw [List.foldl_cons, triggerStep_disarmed percentage st e hpf hpt hsl hml, ih]

/-- On a page with `scrollHeight - innerHeight = 1000`, the scroll handler's
threshold test for value 50 holds exactly when `scrollY ≥ 500`. -/
theorem scrollPercent_1000_ge_50 (y : Rat) :
    (scrollPercent 1000 y ≥ 50) ↔ 500 ≤ y := by
  unfold scrollPercent
  rw [if_pos (by norm_num)]
  rw [ge_iff_le, div_mul_eq_mul_div, le_div_iff₀ (by norm_num)]
  constructor <;> intro h <;> linarith

/-- The state of a scroll trigger (value 50, metric 1000, initial scroll 0)
after any sequence of scroll events all strictly below 500: armed, unfired. -/
theorem scroll_run_below_threshold (ys : List Rat) (h : ∀ y ∈ ys, y < 500) :
    (ys.map (TriggerEvent.scroll 1000)).foldl (triggerStep 50)
        (setupTrigger "scroll_percent" 50 false 1000 0)
      = { initialTriggerState with scrollListener := true } := by
  have hsetup : setupTrigger "scroll_percent" 50 false 1000 0
      = { initialTriggerState with scrollListener := true } := by
    unfold setupTrigger setupScrollTrigger handleScroll scrollPercent initialTriggerState
    norm_num
  rw [hsetup]
  induction ys with
  | nil => rfl
  | cons y rest ih =>
      have hy : y < 500 := h y (List.mem_cons_self y rest)
      have hstep : triggerStep 50 { initialTriggerState with scrollListener := true }
          (TriggerEvent.scroll 1000 y)
          = { initialTriggerState with scrollListener := true } := by
        have : ¬ (scrollPercent 1000 y ≥ 50) := by
          rw [scrollPercent_1000_ge_50]; exact not_le.mpr hy
        simp [triggerStep, handleScroll, initialTriggerState, this]
      rw [List.map_cons, List.foldl_cons, hstep]
      exact ih (fun z hz => h z (List.mem_cons_of_mem y hz))

/-- C2.  (a) For every trigger configuration — any type string, threshold,
touch capability and page metrics — and every event sequence, the armed
trigger invokes its callback at most once.  (b) For a scroll trigger armed
with value 50 on a page where `scrollHeight - innerHeight = 1000` and
initial `scrollY = 0`: after any scroll events strictly below 500 the
callback has not fired; the first event with `scrollY ≥ 500` fires it
(exactly once); and any further events — in particular a second scroll past
500 — leave the invocation count at one. -/
theorem trigger_at_most_once (ttype : String) (value : Rat) (isTouchDevice : Bool)
    (sh y0 : Rat) (events : List TriggerEvent) (ys : List Rat) (y : Rat)
    (more : List TriggerEvent)
    (hys : ∀ z ∈ ys, z < 500) (hy : 500 ≤ y) :
    (runTrigger ttype value isTouchDevice sh y0 events).fires ≤ 1
    ∧ (runTrigger "scroll_percent" 50 false 1000 0 (ys.map (TriggerEvent.scroll 1000))).fires
        = 0
    ∧ (runTrigger "scroll_percent" 50 false 1000 0
        (ys.map (TriggerEvent.scroll 1000) ++ TriggerEvent.scroll 1000 y :: more)).fires
        = 1 := by
  refine ⟨?_, ?_, ?_⟩
  · have h0 := setupTrigger_inv ttype value isTouchDevice sh y0
    have h1 := foldl_triggerStep_inv value events _ h0
    unfold triggerInv at h1
    unfold runTrigger
    omega
  · unfold runTrigger
    rw [scroll_run_below_threshold ys hys]
    rfl
  · unfold runTrigger
    rw [List.foldl_append, scroll_run_below_threshold ys hys, List.foldl_cons]
    have hfire : triggerStep 50 { initialTriggerState with scrollListener := true }
        (TriggerEvent.scroll 1000 y)
        = { initialTriggerState with hasTriggered := true, fires := 1 } := by
      have : scrollPercent 1000 y ≥ 50 := (scrollPercent_1000_ge_50 y).mpr hy
      simp [triggerStep, handleScroll, initialTriggerState, this]
    rw [hfire, foldl_triggerStep_disarmed] <;> rfl

/-- Witness for C2 at concrete inputs: a time-delay trigger receiving two
timer events fires once, and the concrete scroll story with scroll events
at 100, 499 (no fire), then 500 (fire), then 800 (no second fire). -/
theorem trigger_at_most_once_witness :
    (runTrigger "time_delay" 3 false 0 0 [TriggerEvent.timerFire, TriggerEvent.timerFire]).fires
        ≤ 1
    ∧ (runTrigger "scroll_percent" 50 false 1000 0
        ([(100 : Rat), 499].map (TriggerEvent.scroll 1000))).fires = 0
    ∧ (runTrigger "scroll_percent" 50 false 1000 0
        ([(100 : Rat), 499].map (TriggerEvent.scroll 1000)
          ++ TriggerEvent.scroll 1000 500 :: [TriggerEvent.scroll 1000 800])).fires = 1 := by
  have h := trigger_at_most_once "time_delay" 3 false 0 0
    [TriggerEvent.timerFire, TriggerEvent.timerFire] [(100 : Rat), 499] 500
    [TriggerEvent.scroll 1000 800]
    (by
      intro z hz
      simp only [List.mem_cons, List.mem_singleton, List.not_mem_nil, or_false] at hz
      rcases hz with rfl | rfl <;> norm_num)
    (by norm_num)
  exact h

/-- C10.  On a page that cannot scroll (`scrollHeight - innerHeight ≤ 0`)
the scroll handler computes the percentage as 0 for every scroll position;
hence a scroll trigger with a strictly positive value never fires no matter
what scroll events arrive (as long as the page stays unscrollable), while a
value ≤ 0 fires synchronously during arming, before any event. -/
theorem scroll_trigger_unscrollable_page (percentage sh y0 : Rat) (ys : List (Rat × Rat))
    (hsh : sh ≤ 0) (hys : ∀ p ∈ ys, p.1 ≤ 0) :
    (∀ y : Rat, scrollPercent sh y = 0)
    ∧ (0 < percentage →
        (runTrigger "scroll_percent" percentage false sh y0
          (ys.map (fun p => TriggerEvent.scroll p.1 p.2))).fires = 0)
    ∧ (percentage ≤ 0 →
        (setupTrigger "scroll_percent" percentage false sh y0).fires = 1
        ∧ (setupTrigger "scroll_percent" percentage false sh y0).hasTriggered = true) := by
  have hpct : ∀ y : Rat, scrollPercent sh y = 0 := by
    intro y
    unfold scrollPercent
    rw [if_neg (not_lt.mpr hsh)]
  refine ⟨hpct, ?_, ?_⟩
  · intro hpos
    have hsetup : setupTrigger "scroll_percent" percentage false sh y0
        = { initialTriggerState with scrollListener := true } := by
      unfold setupTrigger setupScrollTrigger handleScroll initialTriggerState
      rw [hpct y0]
      simp [not_le.mpr hpos, ge_iff_le]
    unfold runTrigger
    rw [hsetup]
    clear hsetup
    induction ys with
    | nil => rfl
    | cons p rest ih =>
        have hp : p.1 ≤ 0 := hys p (List.mem_cons_self p rest)
        have hpp : scrollPercent p.1 p.2 = 0 := by
          unfold scrollPercent
          rw [if_neg (not_lt.mpr hp)]
        have hstep : triggerStep percentage { initialTriggerState with scrollListener := true }
            (TriggerEvent.scroll p.1 p.2)
            = { initialTriggerState with scrollListener := true } := by
          simp [triggerStep, handleScroll, initialTriggerState, hpp, ge_iff_le,
            not_le.mpr hpos]
        rw [List.map_cons, List.foldl_cons, hstep]
        exact ih (fun q hq => hys q (List.mem_cons_of_mem p hq))
  · intro hle
    unfold setupTrigger setupScrollTrigger handleScroll initialTriggerState
    rw [hpct y0]
    simp [ge_iff_le, hle]

/-- Witness for C10 at concrete inputs: metric `sh = 0`; with value 30 the
trigger never fires even after scroll events, and with value 0 it has
already fired during arming. -/
theorem scroll_trigger_unscrollable_page_witness :
    scrollPercent 0 700 = 0
    ∧ (runTrigger "scroll_percent" 30 false 0 0
        ([((0 : Rat), (700 : Rat))].map (fun p => TriggerEvent.scroll p.1 p.2))).fires = 0
    ∧ (setupTrigger "scroll_percent" 0 false 0 0).fires = 1 := by
  have h := scroll_trigger_unscrollable_page 30 0 0 [((0 : Rat), (700 : Rat))]
    (le_refl 0)
    (by
      intro p hp
      simp only [List.mem_singleton] at hp
      rw [hp])
  have h0 := scroll_trigger_unscrollable_page 0 0 0 ([] : List (Rat × Rat))
    (le_refl 0) (by intro p hp; cases hp)
  exact ⟨h.1 700, (h.2.1 (by norm_num)), (h0.2.2 (le_refl 0)).1⟩

/-! ### Device filter

Translated from device.js.  `window.matchMedia('(max-width: Npx)')` is
modelled by comparing the explicit viewport width against the breakpoint.
Device targeting rules carry one optional boolean per bucket; an absent key
is `none` (JavaScript `undefined`), and only an explicit `false`
(`=== false` in the source) blocks the matching bucket. -/

def getDeviceType (width : Nat) : String :=
  if width ≤ 480 then "mobile"
  else if width ≤ 768 then "tablet"
  else "desktop"

structure DeviceRules where
  mobile : Option Bool
  tablet : Option Bool
  desktop : Option Bool
deriving DecidableEq, Repr

def isDeviceAllowed (deviceRules : Option DeviceRules) (width : Nat) : Bool :=
  match deviceRules with
  | none => true
  | some rules =>
      let currentDevice := getDeviceType width
      if currentDevice == "mobile" && rules.mobile == some false then false
      else if currentDevice == "tablet" && rules.tablet == some false then false
      else if currentDevice == "desktop" && rules.desktop == some false then false
      else true

/-- The rule entry consulted for a given viewport: the one whose bucket
matches the width. -/
def bucketRuleOf (rules : DeviceRules) (width : Nat) : Option Bool :=
  if width ≤ 480 then rules.mobile
  else if width ≤ 768 then rules.tablet
  else rules.desktop

/-- C8.  `isDeviceAllowed` with absent rules allows every viewport; with
rules present it blocks exactly when the rule entry of the bucket matching
the current viewport (mobile ≤ 480 < tablet ≤ 768 < desktop) is explicitly
`false` — so an absent key or a `true` value means allowed and the other
buckets' entries are never consulted.  In particular `{mobile: false}`
blocks on a mobile viewport and allows on a desktop viewport. -/
theorem device_filter_blocks_only_explicit_false (width : Nat) (rules : DeviceRules) :
    isDeviceAllowed none width = true
    ∧ (isDeviceAllowed (some rules) width = false ↔ bucketRuleOf rules width = some false)
    ∧ (width ≤ 480 →
        isDeviceAllowed (some ⟨some false, none, none⟩) width = false)
    ∧ (768 < width →
        isDeviceAllowed (some ⟨some false, none, none⟩) width = true) := by
  obtain ⟨m, t, d⟩ := rules
  refine ⟨rfl, ?_, ?_, ?_⟩
  · unfold isDeviceAllowed bucketRuleOf getDeviceType
    by_cases h1 : width ≤ 480 <;> by_cases h2 : width ≤ 768 <;> simp [h1, h2]
  · intro h1
    simp [isDeviceAllowed, getDeviceType, h1]
  · intro h3
    have h1 : ¬ width ≤ 480 := by omega
    have h2 : ¬ width ≤ 768 := by omega
    simp [isDeviceAllowed, getDeviceType, h1, h2]

/-- Witness for C8 at concrete viewports 400 (mobile) and 1200 (desktop)
with rules `{mobile: false}`. -/
theorem device_filter_blocks_only_explicit_false_witness :
    isDeviceAllowed none 1200 = true
    ∧ isDeviceAllowed (some ⟨some false, none, none⟩) 400 = false
    ∧ isDeviceAllowed (some ⟨some false, none, none⟩) 1200 = true := by
  have h4 := device_filter_blocks_only_explicit_false 400 ⟨some false, none, none⟩
  have h12 := device_filter_blocks_only_explicit_false 1200 ⟨some false, none, none⟩
  exact ⟨h12.1, h4.2.2.1 (by norm_num), h12.2.2.2 (by norm_num)⟩

/-! ### Configuration values

JavaScript configuration objects (tree-shaped JSON, as delivered by the
API) are modelled by `JValue`.  An absent key is simply missing from the
field list (JavaScript `undefined` on access); an explicit `null` is the
`.null` constructor.  `jTruthy` is JavaScript truthiness. -/

inductive JValue where
  | null
  | jbool (b : Bool)
  | jnum (n : Int)
  | jstr (s : String)
  | jarr (elems : List JValue)
  | jobj (fields : List (String × JValue))

def jFields : JValue → List (String × JValue)
  | .jobj fs => fs
  | _ => []

def jTruthy : JValue → Bool
  | .null => false
  | .jbool b => b
  | .jnum n => n != 0
  | .jstr s => s != ""
  | .jarr _ => true
  | .jobj _ => true

/-- Property read returning `none` for an absent key (or a non-object
base): JavaScript `undefined`. -/
def jGet (v : JValue) (k : String) : Option JValue := assocGet (jFields v) k

/-- Property read collapsing `undefined` to `.null`; used where the source
only tests the result for truthiness or nullishness (`a?.b` chains and
`if (x.y)` guards), for which `undefined` and `null` are interchangeable. -/
def jProp (v : JValue) (k : String) : JValue := (jGet v k).getD .null

/-! ### Deep merge (defaults.js)

`deepMerge(target, source)` starts from a shallow copy of the target, then
for every source key: `null`/`undefined` values are skipped (the default
survives); non-array objects are merged recursively against
`target[key] || {}`; every other value (including arrays, which are
replaced wholesale) overwrites.  `deepMergeStep tf res src` carries the
original target fields `tf` (the source reads `target[key]`, not the
partial result), the result being built `res`, and the remaining source
fields `src`. -/

def deepMergeStep (tf : List (String × JValue)) :
    List (String × JValue) → List (String × JValue) → List (String × JValue)
  | res, [] => res
  | res, (k, v) :: rest =>
    match v with
    | .null => deepMergeStep tf res rest
    | .jobj sfs =>
        let tv : JValue :=
          match assocGet tf k with
          | some w => if jTruthy w then w else .jobj []
          | none => .jobj []
        deepMergeStep tf
          (assocSet res k (.jobj (deepMergeStep (jFields tv) (jFields tv) sfs))) rest
    | w => deepMergeStep tf (assocSet res k w) rest
termination_by res src => sizeOf src
decreasing_by
  all_goals simp_wf
  all_goals omega

def deepMergeFields (tf sf : List (String × JValue)) : List (String × JValue) :=
  deepMergeStep tf tf sf

def deepMerge (target source : JValue) : JValue :=
  .jobj (deepMergeFields (jFields target) (jFields source))

theorem deepMergeFields_eq (tf sf : List (String × JValue)) :
    deepMergeFields tf sf = deepMergeStep tf tf sf := rfl

theorem jGet_jobj (fs : List (String × JValue)) (k : String) :
    jGet (JValue.jobj fs) k = assocGet fs k := rfl

/-- The recursion target `target[key] || {}` used by `deepMerge` for
object-valued source entries. -/
def tvOf (tf : List (String × JValue)) (k : String) : JValue :=
  match assocGet tf k with
  | some w => if jTruthy w then w else .jobj []
  | none => .jobj []

theorem deepMergeStep_nil (tf res : List (String × JValue)) :
    deepMergeStep tf res [] = res := by
  simp [deepMergeStep]

theorem deepMergeStep_cons_null (tf res rest : List (String × JValue)) (k : String) :
    deepMergeStep tf res ((k, .null) :: rest) = deepMergeStep tf res rest := by
  simp [deepMergeStep]

theorem deepMergeStep_cons_obj (tf res rest sfs : List (String × JValue)) (k : String) :
    deepMergeStep tf res ((k, .jobj sfs) :: rest)
      = deepMergeStep tf
          (assocSet res k
            (.jobj (deepMergeStep (jFields (tvOf tf k)) (jFields (tvOf tf k)) sfs))) rest := by
  simp [deepMergeStep, tvOf]

theorem deepMergeStep_cons_prim (tf res rest : List (String × JValue)) (k : String)
    (v : JValue) (h1 : v ≠ .null) (h2 : ∀ sfs, v ≠ .jobj sfs) :
    deepMergeStep tf res ((k, v) :: rest) = deepMergeStep tf (assocSet res k v) rest := by
  cases v <;> simp_all [deepMergeStep]

/-- A key not named by any source entry keeps its value from the result
being built. -/
theorem assocGet_deepMergeStep_not_mem (tf : List (String × JValue))
    (src : List (String × JValue)) (k : String) (h : k ∉ src.map Prod.fst) :
    ∀ res, assocGet (deepMergeStep tf res src) k = assocGet res k := by
  induction src with
  | nil => intro res; rw [deepMergeStep_nil]
  | cons p rest ih =>
      obtain ⟨k1, v1⟩ := p
      simp only [List.map_cons, List.mem_cons, not_or] at h
      obtain ⟨hk1, hrest⟩ := h
      intro res
      rcases v1 with _ | b | n | s | es | sfs
      · rw [deepMergeStep_cons_null]
        exact ih hrest res
      · rw [deepMergeStep_cons_prim tf res rest k1 _ (by simp) (by simp)]
        rw [ih hrest]
        exact assocGet_assocSet_ne res k1 k _ hk1
      · rw [deepMergeStep_cons_prim tf res rest k1 _ (by simp) (by simp)]
        rw [ih hrest]
        exact assocGet_assocSet_ne res k1 k _ hk1
      · rw [deepMergeStep_cons_prim tf res rest k1 _ (by simp) (by simp)]
        rw [ih hrest]
        exact assocGet_assocSet_ne res k1 k _ hk1
      · rw [deepMergeStep_cons_prim tf res rest k1 _ (by simp) (by simp)]
        rw [ih hrest]
        exact assocGet_assocSet_ne res k1 k _ hk1
      · rw [deepMergeStep_cons_obj]
        rw [ih hrest]
        exact assocGet_assocSet_ne res k1 k _ hk1

/-- A non-null, non-object source value lands in the merge result
unchanged (the overwrite branch of `deepMerge`). -/
theorem assocGet_deepMergeStep_prim (tf : List (String × JValue))
    (src : List (String × JValue)) (k : String) (v : JValue)
    (hN : (src.map Prod.fst).Nodup) (hget : assocGet src k = some v)
    (h1 : v ≠ .null) (h2 : ∀ sfs, v ≠ .jobj sfs) :
    ∀ res, assocGet (deepMergeStep tf res src) k = some v := by
  induction src with
  | nil => simp [assocGet] at hget
  | cons p rest ih =>
      obtain ⟨k1, v1⟩ := p
      simp only [List.map_cons, List.nodup_cons] at hN
      obtain ⟨hk1mem, hNrest⟩ := hN
      intro res
      by_cases hk : k1 = k
      · subst hk
        have hv1 : v1 = v := by simpa [assocGet] using hget
        subst hv1
        rw [deepMergeStep_cons_prim tf res rest k1 v1 h1 h2]
        rw [assocGet_deepMergeStep_not_mem tf rest k1 hk1mem]
        exact assocGet_assocSet_self res k1 v1
      · have hget2 : assocGet rest k = some v := by
          simpa [assocGet, hk] using hget
        rcases v1 with _ | b | n | s | es | sfs
        · rw [deepMergeStep_cons_null]
          exact ih hNrest hget2 res
        · rw [deepMergeStep_cons_prim tf res rest k1 _ (by simp) (by simp)]
          exact ih hNrest hget2 _
        · rw [deepMergeStep_cons_prim tf res rest k1 _ (by simp) (by simp)]
          exact ih hNrest hget2 _
        · rw [deepMergeStep_cons_prim tf res rest k1 _ (by simp) (by simp)]
          exact ih hNrest hget2 _
        · rw [deepMergeStep_cons_prim tf res rest k1 _ (by simp) (by simp)]
          exact ih hNrest hget2 _
        · rw [deepMergeStep_cons_obj]
          exact ih hNrest hget2 _

/-- An object-valued source entry is recursively merged against
`target[key] || {}`. -/
theorem assocGet_deepMergeStep_obj (tf : List (String × JValue))
    (src : List (String × JValue)) (k : String) (sfs : List (String × JValue))
    (hN : (src.map Prod.fst).Nodup) (hget : assocGet src k = some (.jobj sfs)) :
    ∀ res, assocGet (deepMergeStep tf res src) k
      = some (.jobj (deepMergeStep (jFields (tvOf tf k)) (jFields (tvOf tf k)) sfs)) := by
  induction src with
  | nil => simp [assocGet] at hget
  | cons p rest ih =>
      obtain ⟨k1, v1⟩ := p
      simp only [List.map_cons, List.nodup_cons] at hN
      obtain ⟨hk1mem, hNrest⟩ := hN
      intro res
      by_cases hk : k1 = k
      · subst hk
        have hv1 : v1 = .jobj sfs := by simpa [assocGet] using hget
        subst hv1
        rw [deepMergeStep_cons_obj]
        rw [assocGet_deepMergeStep_not_mem tf rest k1 hk1mem]
        exact assocGet_assocSet_self res k1 _
      · have hget2 : assocGet rest k = some (.jobj sfs) := by
          simpa [assocGet, hk] using hget
        rcases v1 with _ | b | n | s | es | sfs1
        · rw [deepMergeStep_cons_null]
          exact ih hNrest hget2 res
        · rw [deepMergeStep_cons_prim tf res rest k1 _ (by simp) (by simp)]
          exact ih hNrest hget2 _
        · rw [deepMergeStep_cons_prim tf res rest k1 _ (by simp) (by simp)]
          exact ih hNrest hget2 _
        · rw [deepMergeStep_cons_prim tf res rest k1 _ (by simp) (by simp)]
          exact ih hNrest hget2 _
        · rw [deepMergeStep_cons_prim tf res rest k1 _ (by simp) (by simp)]
          exact ih hNrest hget2 _
        · rw [deepMergeStep_cons_obj]
          exact ih hNrest hget2 _

/-- `deepMerge` never loses a key of the result being built (in
particular, every default-template key survives). -/
theorem assocGet_deepMergeStep_isSome (tf : List (String × JValue))
    (src : List (String × JValue)) (k : String) :
    ∀ res, (assocGet res k).isSome → (assocGet (deepMergeStep tf res src) k).isSome := by
  induction src with
  | nil =>
      intro res h
      rwa [deepMergeStep_nil]
  | cons p rest ih =>
      obtain ⟨k1, v1⟩ := p
      intro res h
      rcases v1 with _ | b | n | s | es | sfs
      · rw [deepMergeStep_cons_null]
        exact ih res h
      · rw [deepMergeStep_cons_prim tf res rest k1 _ (by simp) (by simp)]
        exact ih _ (assocGet_isSome_assocSet res k1 k _ h)
      · rw [deepMergeStep_cons_prim tf res rest k1 _ (by simp) (by simp)]
        exact ih _ (assocGet_isSome_assocSet res k1 k _ h)
      · rw [deepMergeStep_cons_prim tf res rest k1 _ (by simp) (by simp)]
        exact ih _ (assocGet_isSome_assocSet res k1 k _ h)
      · rw [deepMergeStep_cons_prim tf res rest k1 _ (by simp) (by simp)]
        exact ih _ (assocGet_isSome_assocSet res k1 k _ h)
      · rw [deepMergeStep_cons_obj]
        exact ih _ (assocGet_isSome_assocSet res k1 k _ h)

/-! ### Default templates (defaults.js) -/

def TOP_BAR_DEFAULTS : List (String × JValue) :=
  [("type", .jstr "top_bar"),
   ("position", .jstr "top"),
   ("fixed", .jbool true),
   ("pushContent", .jbool true),
   ("showCloseButton", .jbool true),
   ("closable", .jbool true),
   ("width", .jstr "100%"),
   ("maxWidth", .jstr "none"),
   ("content", .jobj [("headline", .jstr ""), ("body", .jstr ""), ("image", .null)]),
   ("buttons", .jarr []),
   ("style", .jobj
      [("backgroundColor", .jstr "#ffffff"),
       ("textColor", .jstr "#1a1a1a"),
       ("closeIconColor", .jstr "#999999"),
       ("borderRadius", .jstr "0px"),
       ("boxShadow", .jstr "0 2px 8px rgba(0, 0, 0, 0.08)"),
       ("padding", .jstr "12px 20px"),
       ("borderBottom", .jstr "1px solid rgba(0, 0, 0, 0.05)"),
       ("fontFamily", .null)]),
   ("animation", .jobj [("enter", .jstr "slideDown"), ("exit", .jstr "slideUp")])]

def MODAL_DEFAULTS : List (String × JValue) :=
  [("type", .jstr "modal"),
   ("showCloseButton", .jbool true),
   ("closable", .jbool true),
   ("closeOnOverlayClick", .jbool true),
   ("width", .jstr "420px"),
   ("maxWidth", .jstr "90vw"),
   ("content", .jobj [("headline", .jstr ""), ("body", .jstr ""), ("image", .null)]),
   ("buttons", .jarr []),
   ("style", .jobj
      [("backgroundColor", .jstr "#ffffff"),
       ("textColor", .jstr "#1a1a1a"),
       ("closeIconColor", .jstr "#999999"),
       ("borderRadius", .jstr "12px"),
       ("boxShadow", .jstr "0 4px 20px rgba(0, 0, 0, 0.15)"),
       ("padding", .jstr "24px"),
       ("overlayColor", .jstr "rgba(0, 0, 0, 0.6)"),
       ("fontFamily", .null)]),
   ("animation", .jobj [("enter", .jstr "scaleIn"), ("exit", .jstr "scaleOut")])]

/-- `getDefaults(type)`: strict string switch with modal fallback. -/
def getDefaults (t : Option JValue) : List (String × JValue) :=
  match t with
  | some (.jstr "top_bar") => TOP_BAR_DEFAULTS
  | some (.jstr "modal") => MODAL_DEFAULTS
  | _ => MODAL_DEFAULTS

/-- The value of `config.design?.type`. -/
def designTypeOf (config : JValue) : Option JValue :=
  match jGet config "design" with
  | none => none
  | some d => jGet d "type"

/-- `const type = config.type || config.design?.type`. -/
def resolvedType (config : JValue) : Option JValue :=
  match jGet config "type" with
  | some v => if jTruthy v then some v else designTypeOf config
  | none => designTypeOf config

/-! ### Branding application (defaults.js `applyBranding`)

The source mutates the `style` / `buttons` / `content` objects it reached
from the (shallow-copied) result and then stores them back into
`result.style` or `result.design.style` (and likewise for buttons and
content).  On tree-shaped (alias-free) configuration values the final value
is reproduced here functionally: compute the updated style fields, updated
button list and updated content, then perform the same conditional
write-backs.  Mutation itself (observable through aliases into the caller's
raw config) is treated separately with the heap semantics further below. -/

/-- One guarded branding assignment:
`if (src.srcKey && !target.tgtKey) target.tgtKey = src.srcKey`. -/
def condAssign (fs : List (String × JValue)) (tgtKey : String) (src : JValue)
    (srcKey : String) : List (String × JValue) :=
  if jTruthy (jProp src srcKey) && !(jTruthy ((assocGet fs tgtKey).getD .null)) then
    assocSet fs tgtKey (jProp src srcKey)
  else fs

/-- `result.k.innerK = v` for an object-valued field `k` (a property write
through a primitive is dropped, as nothing observable happens to the
tree). -/
def setObjField (fs : List (String × JValue)) (k innerK : String) (v : JValue) :
    List (String × JValue) :=
  match assocGet fs k with
  | some (.jobj inner) => assocSet fs k (.jobj (assocSet inner innerK v))
  | _ => fs

/-- The `buttons.forEach((btn, index) => ...)` body: ensure `btn.style`
exists, then fill unset style fields from the primary preset (index 0) or
the secondary preset (other indices, when present). -/
def brandButton (branding bp : JValue) (index : Nat) (btn : JValue) : JValue :=
  match btn with
  | .jobj bf =>
      let bf1 := if jTruthy ((assocGet bf "style").getD .null) then bf
                 else assocSet bf "style" (.jobj [])
      let sf := jFields ((assocGet bf1 "style").getD .null)
      let sf2 :=
        if index == 0 then
          condAssign (condAssign (condAssign (condAssign sf
            "backgroundColor" bp "background")
            "textColor" bp "textColor")
            "borderRadius" bp "borderRadius")
            "boxShadow" bp "shadow"
        else
          let secondaryBtn := jProp (jProp branding "components") "buttonSecondary"
          if jTruthy secondaryBtn then
            condAssign (condAssign (condAssign sf
              "backgroundColor" secondaryBtn "background")
              "textColor" secondaryBtn "textColor")
              "borderRadius" secondaryBtn "borderRadius"
          else sf
      .jobj (assocSet bf1 "style" (.jobj sf2))
  | other => other

/-- `const style = result.style || result.design?.style || {}`. -/
def styleSource (rf : List (String × JValue)) : JValue :=
  let s1 := (assocGet rf "style").getD .null
  if jTruthy s1 then s1
  else
    let s2 := jProp ((assocGet rf "design").getD .null) "style"
    if jTruthy s2 then s2 else .jobj []

/-- `const buttons = result.buttons || result.design?.buttons || []`. -/
def buttonsSource (rf : List (String × JValue)) : JValue :=
  let b1 := (assocGet rf "buttons").getD .null
  if jTruthy b1 then b1
  else
    let b2 := jProp ((assocGet rf "design").getD .null) "buttons"
    if jTruthy b2 then b2 else .jarr []

/-- `const content = result.content || result.design?.content || {}`. -/
def contentSource (rf : List (String × JValue)) : JValue :=
  let c1 := (assocGet rf "content").getD .null
  if jTruthy c1 then c1
  else
    let c2 := jProp ((assocGet rf "design").getD .null) "content"
    if jTruthy c2 then c2 else .jobj []

/-- The colors / typography / spacing sections of `applyBranding`: fill the
still-unset style fields from the branding. -/
def brandedStyleFields (branding : JValue) (sf0 : List (String × JValue)) :
    List (String × JValue) :=
  let colors := jProp branding "colors"
  let sf1 :=
    if jTruthy colors then
      condAssign (condAssign sf0 "backgroundColor" colors "background")
        "textColor" colors "textPrimary"
    else sf0
  let sf2 := condAssign sf1 "fontFamily"
      (jProp (jProp branding "typography") "fontFamilies") "primary"
  condAssign sf2 "borderRadius" (jProp branding "spacing") "borderRadius"

/-- The style value after branding; writes through a primitive `style`
value change nothing. -/
def brandedStyleVal (branding styleInit : JValue) : JValue :=
  match styleInit with
  | .jobj sf => .jobj (brandedStyleFields branding sf)
  | other => other

/-- The button-preset section: `branding.components?.buttonPrimary` plus a
non-empty buttons array gate the per-button fill. -/
def brandedButtonsVal (branding buttonsInit : JValue) : JValue :=
  let bp := jProp (jProp branding "components") "buttonPrimary"
  let btnList := match buttonsInit with | .jarr es => es | _ => []
  let btnList2 :=
    if jTruthy bp && decide (0 < btnList.length) then
      btnList.enum.map (fun p => brandButton branding bp p.1 p.2)
    else btnList
  match buttonsInit with | .jarr _ => .jarr btnList2 | other => other

/-- `if (!content.image) content.image = {url: logo, position: 'left',
height: '24px'}`. -/
def contentWithLogo (cf : List (String × JValue)) (logo : JValue) :
    List (String × JValue) :=
  if !(jTruthy ((assocGet cf "image").getD .null)) then
    assocSet cf "image"
      (.jobj [("url", logo), ("position", .jstr "left"), ("height", .jstr "24px")])
  else cf

def brandedContentVal (contentInit logo : JValue) : JValue :=
  match contentInit with
  | .jobj cf => .jobj (contentWithLogo cf logo)
  | other => other

/-- The logo section of `applyBranding`, including the content
write-back. -/
def logoWriteback (branding : JValue) (rf : List (String × JValue)) :
    List (String × JValue) :=
  let logo := jProp (jProp branding "images") "logo"
  if jTruthy logo then
    let contentVal := brandedContentVal (contentSource rf) logo
    if jTruthy ((assocGet rf "content").getD .null) then assocSet rf "content" contentVal
    else if jTruthy ((assocGet rf "design").getD .null) then
      setObjField rf "design" "content" contentVal
    else rf
  else rf

/-- `if (result.style) result.style = style; else if (result.design)
result.design.style = style`. -/
def styleWriteback (styleVal : JValue) (rf : List (String × JValue)) :
    List (String × JValue) :=
  if jTruthy ((assocGet rf "style").getD .null) then assocSet rf "style" styleVal
  else if jTruthy ((assocGet rf "design").getD .null) then
    setObjField rf "design" "style" styleVal
  else rf

/-- `if (result.buttons) result.buttons = buttons; else if (result.design)
result.design.buttons = buttons`. -/
def buttonsWriteback (buttonsVal : JValue) (rf : List (String × JValue)) :
    List (String × JValue) :=
  if jTruthy ((assocGet rf "buttons").getD .null) then assocSet rf "buttons" buttonsVal
  else if jTruthy ((assocGet rf "design").getD .null) then
    setObjField rf "design" "buttons" buttonsVal
  else rf

/-- `applyBranding(config, branding)`: early return on falsy branding,
otherwise the style / buttons sources are read from the shallow copy, the
branded style and buttons are computed, the logo section runs, and the
three write-backs are applied in source order (content inside the logo
section, then style, then buttons). -/
def applyBranding (config : JValue) (branding : JValue) : JValue :=
  if !(jTruthy branding) then config
  else
    let rf := jFields config
    let styleVal := brandedStyleVal branding (styleSource rf)
    let buttonsVal := brandedButtonsVal branding (buttonsSource rf)
    .jobj (buttonsWriteback buttonsVal (styleWriteback styleVal (logoWriteback branding rf)))

/-- The merge half of `mergeWithDefaults`: resolve the type, pick the
template, deep-merge (inside the `design` wrapper for legacy configs, at
top level otherwise). -/
def mergeCore (config : JValue) : JValue :=
  let defaults := getDefaults (resolvedType config)
  match jGet config "design" with
  | some d =>
      if jTruthy d then
        .jobj (assocSet (jFields config) "design"
          (.jobj (deepMergeFields defaults (jFields d))))
      else .jobj (deepMergeFields defaults (jFields config))
  | none => .jobj (deepMergeFields defaults (jFields config))

/-- `mergeWithDefaults(config, branding = null)`: the merge, then
`if (branding) result = applyBranding(result, branding)`. -/
def mergeWithDefaults (config : JValue) (branding : Option JValue) : JValue :=
  match branding with
  | some b => if jTruthy b then applyBranding (mergeCore config) b else mergeCore config
  | none => mergeCore config

/-! ### Renderer content extraction (PopupRenderer)

After `mergeWithDefaults`, the renderer picks its working object
(`config.design || config`), its content
(`design.content || { headline: design.headline, body: design.body,
image: design.image }`) and normalizes headline/body with
`normalizeTextItem` (a raw string becomes `{ text, style: {} }`; a falsy
value becomes the empty default; anything else is kept). -/

def normalizeTextItem (item : Option JValue) : JValue :=
  match item with
  | some (.jstr s) => .jobj [("text", .jstr s), ("style", .jobj [])]
  | some v => if jTruthy v then v else .jobj [("text", .jstr ""), ("style", .jobj [])]
  | none => .jobj [("text", .jstr ""), ("style", .jobj [])]

def rendererDesign (config : JValue) : JValue :=
  let d := (jGet config "design").getD .null
  if jTruthy d then d else config

def rendererRawContent (design : JValue) : JValue :=
  let c := (jGet design "content").getD .null
  if jTruthy c then c
  else
    .jobj
      ((match jGet design "headline" with | some v => [("headline", v)] | none => []) ++
       (match jGet design "body" with | some v => [("body", v)] | none => []) ++
       (match jGet design "image" with | some v => [("image", v)] | none => []))

def rendererHeadline (config : JValue) : JValue :=
  normalizeTextItem (jGet (rendererRawContent (rendererDesign config)) "headline")

/-! ### Lemmas on branding application, towards C9 -/

theorem condAssign_at_key (fs : List (String × JValue)) (tgtKey : String) (src : JValue)
    (srcKey : String) :
    assocGet (condAssign fs tgtKey src srcKey) tgtKey
      = if jTruthy (jProp src srcKey) && !(jTruthy ((assocGet fs tgtKey).getD .null)) then
          some (jProp src srcKey)
        else assocGet fs tgtKey := by
  unfold condAssign
  split_ifs with h
  · rw [assocGet_assocSet_self]
  · rfl

theorem condAssign_ne_key (fs : List (String × JValue)) (tgtKey : String) (src : JValue)
    (srcKey : String) (k : String) (hk : k ≠ tgtKey) :
    assocGet (condAssign fs tgtKey src srcKey) k = assocGet fs k := by
  unfold condAssign
  split_ifs with h
  · exact assocGet_assocSet_ne fs tgtKey k _ hk
  · rfl

theorem condAssign_noop_of_truthy (fs : List (String × JValue)) (tgtKey : String)
    (src : JValue) (srcKey : String)
    (h : jTruthy ((assocGet fs tgtKey).getD .null) = true) :
    condAssign fs tgtKey src srcKey = fs := by
  unfold condAssign
  simp [h]

/-- The composed style branding never changes a `backgroundColor` the
config reached branding with, as long as that value is truthy. -/
theorem brandedStyleFields_keeps_bg (branding : JValue) (sf : List (String × JValue))
    (v : JValue) (hget : assocGet sf "backgroundColor" = some v)
    (hv : jTruthy v = true) :
    assocGet (brandedStyleFields branding sf) "backgroundColor" = some v := by
  unfold brandedStyleFields
  have h1 : assocGet (if jTruthy (jProp branding "colors") then
        condAssign (condAssign sf "backgroundColor" (jProp branding "colors") "background")
          "textColor" (jProp branding "colors") "textPrimary"
      else sf) "backgroundColor" = some v := by
    split_ifs with hc
    · rw [condAssign_ne_key _ _ _ _ _ (by decide),
        condAssign_noop_of_truthy _ _ _ _ (by rw [hget]; exact hv), hget]
    · exact hget
  rw [condAssign_ne_key _ _ _ _ _ (by decide), condAssign_ne_key _ _ _ _ _ (by decide)]
  exact h1

theorem styleSource_of_style (rf : List (String × JValue)) (sv : JValue)
    (h : assocGet rf "style" = some sv) (ht : jTruthy sv = true) :
    styleSource rf = sv := by
  unfold styleSource
  rw [h]
  simp [ht]

theorem setObjField_ne_key (fs : List (String × JValue)) (k innerK : String) (v : JValue)
    (k2 : String) (hk : k2 ≠ k) :
    assocGet (setObjField fs k innerK v) k2 = assocGet fs k2 := by
  unfold setObjField
  split
  · exact assocGet_assocSet_ne fs k k2 _ hk
  · rfl

theorem logoWriteback_keeps_style (branding : JValue) (rf : List (String × JValue)) :
    assocGet (logoWriteback branding rf) "style" = assocGet rf "style" := by
  simp only [logoWriteback]
  split_ifs
  · exact assocGet_assocSet_ne rf "content" "style" _ (by decide)
  · exact setObjField_ne_key rf "design" "content" _ "style" (by decide)
  · rfl
  · rfl

theorem buttonsWriteback_keeps_style (buttonsVal : JValue) (rf : List (String × JValue)) :
    assocGet (buttonsWriteback buttonsVal rf) "style" = assocGet rf "style" := by
  simp only [buttonsWriteback]
  split_ifs
  · exact assocGet_assocSet_ne rf "buttons" "style" _ (by decide)
  · exact setObjField_ne_key rf "design" "buttons" _ "style" (by decide)
  · rfl

theorem TOP_BAR_DEFAULTS_style :
    assocGet TOP_BAR_DEFAULTS "style" = some (.jobj
      [("backgroundColor", JValue.jstr "#ffffff"),
       ("textColor", JValue.jstr "#1a1a1a"),
       ("closeIconColor", JValue.jstr "#999999"),
       ("borderRadius", JValue.jstr "0px"),
       ("boxShadow", JValue.jstr "0 2px 8px rgba(0, 0, 0, 0.08)"),
       ("padding", JValue.jstr "12px 20px"),
       ("borderBottom", JValue.jstr "1px solid rgba(0, 0, 0, 0.05)"),
       ("fontFamily", JValue.null)]) := rfl

theorem MODAL_DEFAULTS_style :
    assocGet MODAL_DEFAULTS "style" = some (.jobj
      [("backgroundColor", JValue.jstr "#ffffff"),
       ("textColor", JValue.jstr "#1a1a1a"),
       ("closeIconColor", JValue.jstr "#999999"),
       ("borderRadius", JValue.jstr "12px"),
       ("boxShadow", JValue.jstr "0 4px 20px rgba(0, 0, 0, 0.15)"),
       ("padding", JValue.jstr "24px"),
       ("overlayColor", JValue.jstr "rgba(0, 0, 0, 0.6)"),
       ("fontFamily", JValue.null)]) := rfl

/-- Whatever template the type switch picks, its `style` entry is a
concrete object. -/
theorem getDefaults_style (t : Option JValue) :
    ∃ dsf, assocGet (getDefaults t) "style" = some (.jobj dsf) := by
  unfold getDefaults
  split
  · exact ⟨_, TOP_BAR_DEFAULTS_style⟩
  · exact ⟨_, MODAL_DEFAULTS_style⟩
  · exact ⟨_, MODAL_DEFAULTS_style⟩

/-- Reading `result.style.backgroundColor` through two levels. -/
def jPath2 (v : JValue) (k1 k2 : String) : Option JValue :=
  match jGet v k1 with
  | some w => jGet w k2
  | none => none

theorem jPath2_of_get (v w : JValue) (k1 k2 : String) (h : jGet v k1 = some w) :
    jPath2 v k1 k2 = jGet w k2 := by
  unfold jPath2
  rw [h]

/-- Core of C9: `applyBranding` preserves a truthy
`style.backgroundColor` already present on the (merged) config, for every
branding value. -/
theorem applyBranding_preserves_bg (rf S : List (String × JValue)) (b v : JValue)
    (h1 : assocGet rf "style" = some (.jobj S))
    (h2 : assocGet S "backgroundColor" = some v) (hv : jTruthy v = true) :
    jPath2 (applyBranding (.jobj rf) b) "style" "backgroundColor" = some v := by
  unfold applyBranding
  by_cases hb : jTruthy b = true
  · simp only [hb, Bool.not_true, Bool.false_eq_true, if_false]
    have hsrc : styleSource (jFields (.jobj rf)) = .jobj S := by
      simp only [jFields]
      exact styleSource_of_style rf _ h1 rfl
    simp only [jFields] at hsrc ⊢
    rw [hsrc]
    have hstylev : brandedStyleVal b (.jobj S) = .jobj (brandedStyleFields b S) := rfl
    rw [hstylev]
    set rfL := logoWriteback b rf with hrfL
    have hL : assocGet rfL "style" = some (.jobj S) := by
      rw [hrfL, logoWriteback_keeps_style, h1]
    have hw : styleWriteback (.jobj (brandedStyleFields b S)) rfL
        = assocSet rfL "style" (.jobj (brandedStyleFields b S)) := by
      unfold styleWriteback
      rw [hL]
      simp [jTruthy]
    rw [hw]
    have hF : jGet (JValue.jobj
        (buttonsWriteback (brandedButtonsVal b (buttonsSource rf))
          (assocSet rfL "style" (.jobj (brandedStyleFields b S))))) "style"
        = some (.jobj (brandedStyleFields b S)) := by
      rw [jGet_jobj, buttonsWriteback_keeps_style, assocGet_assocSet_self]
    rw [jPath2_of_get _ _ _ _ hF, jGet_jobj]
    exact brandedStyleFields_keeps_bg b S v h2 hv
  · simp only [Bool.not_eq_true] at hb
    simp only [hb, Bool.not_false, if_true]
    have hg : jGet (JValue.jobj rf) "style" = some (.jobj S) := by
      rw [jGet_jobj]; exact h1
    rw [jPath2_of_get _ _ _ _ hg, jGet_jobj]
    exact h2

/-- The merge half always returns an object. -/
theorem mergeCore_jobj (cf : List (String × JValue)) :
    ∃ rf, mergeCore (.jobj cf) = .jobj rf := by
  unfold mergeCore
  rcases h : jGet (JValue.jobj cf) "design" with _ | d
  · exact ⟨_, rfl⟩
  · by_cases ht : jTruthy d = true
    · simp only [ht, if_true]
      exact ⟨_, rfl⟩
    · simp only [ht, Bool.false_eq_true, if_false]
      exact ⟨_, rfl⟩

/-- After the merge, a config-supplied `style` object survives: its fields
are either taken over verbatim (legacy path) or merged with the template's
style, and a config-set `backgroundColor` string wins the merge. -/
theorem mergeCore_style_bg (cf sf : List (String × JValue)) (v : String)
    (hcfN : (cf.map Prod.fst).Nodup)
    (hsfN : (sf.map Prod.fst).Nodup)
    (hstyle : assocGet cf "style" = some (.jobj sf))
    (hbg : assocGet sf "backgroundColor" = some (.jstr v)) :
    ∃ S0, jGet (mergeCore (.jobj cf)) "style" = some (.jobj S0)
      ∧ assocGet S0 "backgroundColor" = some (.jstr v) := by
  unfold mergeCore
  obtain ⟨dsf, hdsf⟩ := getDefaults_style (resolvedType (.jobj cf))
  have htv : tvOf (getDefaults (resolvedType (.jobj cf))) "style" = .jobj dsf := by
    unfold tvOf
    rw [hdsf]
    simp [jTruthy]
  have hflat : ∃ S0,
      jGet (JValue.jobj (deepMergeFields (getDefaults (resolvedType (.jobj cf))) cf))
          "style" = some (.jobj S0)
        ∧ assocGet S0 "backgroundColor" = some (.jstr v) := by
    refine ⟨deepMergeStep dsf dsf sf, ?_, ?_⟩
    · rw [jGet_jobj, deepMergeFields_eq]
      rw [assocGet_deepMergeStep_obj _ cf "style" sf hcfN hstyle]
      rw [htv]
      simp [jFields]
    · exact assocGet_deepMergeStep_prim dsf sf "backgroundColor" (.jstr v) hsfN hbg
        (by simp) (by simp) dsf
  rcases h : jGet (JValue.jobj cf) "design" with _ | d
  · simpa [jFields] using hflat
  · by_cases ht : jTruthy d = true
    · simp only [ht, if_true]
      refine ⟨sf, ?_, hbg⟩
      rw [jGet_jobj]
      simp only [jFields]
      rw [assocGet_assocSet_ne cf "design" "style" _ (by decide)]
      exact hstyle
    · simp only [ht, Bool.false_eq_true, if_false]
      simpa [jFields] using hflat

/-- C9.  Branding never overwrites an explicitly set style field: for every
config (any other fields, any shape) whose `style` object sets
`backgroundColor` to the string `'#000'` and for EVERY branding value
(covering in particular brandings with `colors.background = '#fff'`), the
normalized result still has `style.backgroundColor = '#000'`.  In general
every branding style assignment goes through the guarded pattern
`if (brandingValue && !target.field) target.field = brandingValue` —
assigning only when the branding value is truthy and the target field is
unset (falsy) — and the logo is only installed when `content.image` is
unset. -/
theorem branding_never_overwrites_style (cf sf : List (String × JValue)) (b : JValue)
    (hcfN : (cf.map Prod.fst).Nodup)
    (hsfN : (sf.map Prod.fst).Nodup)
    (hstyle : assocGet cf "style" = some (.jobj sf))
    (hbg : assocGet sf "backgroundColor" = some (.jstr "#000")) :
    jPath2 (mergeWithDefaults (.jobj cf) (some b)) "style" "backgroundColor"
        = some (.jstr "#000")
    ∧ (∀ (fs : List (String × JValue)) (tgtKey srcKey : String) (src : JValue),
        assocGet (condAssign fs tgtKey src srcKey) tgtKey
          = if jTruthy (jProp src srcKey) && !(jTruthy ((assocGet fs tgtKey).getD .null))
            then some (jProp src srcKey) else assocGet fs tgtKey)
    ∧ (∀ (cf2 : List (String × JValue)) (logo : JValue),
        jTruthy ((assocGet cf2 "image").getD .null) = true →
        contentWithLogo cf2 logo = cf2) := by
  refine ⟨?_, fun fs tgtKey srcKey src => condAssign_at_key fs tgtKey src srcKey, ?_⟩
  · obtain ⟨S0, hS0get, hS0bg⟩ := mergeCore_style_bg cf sf "#000" hcfN hsfN hstyle hbg
    obtain ⟨rf, hrf⟩ := mergeCore_jobj cf
    unfold mergeWithDefaults
    by_cases hb : jTruthy b = true
    · simp only [hb, if_true]
      rw [hrf]
      rw [hrf, jGet_jobj] at hS0get
      exact applyBranding_preserves_bg rf S0 b (.jstr "#000") hS0get hS0bg rfl
    · simp only [hb, Bool.false_eq_true, if_false]
      rw [jPath2_of_get _ _ _ _ hS0get, jGet_jobj]
      exact hS0bg
  · intro cf2 logo h
    unfold contentWithLogo
    simp [h]

/-- Witness for C9 at a concrete input: config
`{style: {backgroundColor: '#000'}}` with branding
`{colors: {background: '#fff'}}` keeps `'#000'`. -/
theorem branding_never_overwrites_style_witness :
    jPath2 (mergeWithDefaults
        (.jobj [("style", .jobj [("backgroundColor", .jstr "#000")])])
        (some (.jobj [("colors", .jobj [("background", .jstr "#fff")])])))
      "style" "backgroundColor" = some (.jstr "#000") :=
  (branding_never_overwrites_style
    [("style", .jobj [("backgroundColor", .jstr "#000")])]
    [("backgroundColor", .jstr "#000")]
    (.jobj [("colors", .jobj [("background", .jstr "#fff")])])
    (by simp) (by simp) rfl rfl).1

/-- The legacy-shaped configuration of the claim:
`{design: {type: 'modal', headline: 'Hi'}}`. -/
def legacyHiConfig : JValue :=
  .jobj [("design", .jobj [("type", .jstr "modal"), ("headline", .jstr "Hi")])]

/-- The flat configuration of the claim: `{type: 'top_bar'}`. -/
def flatTopBarConfig : JValue := .jobj [("type", .jstr "top_bar")]

/-- C3.  Evaluation of the normalization pipeline (mergeWithDefaults
followed by the renderer's content extraction) at the claim's two inputs.
For the legacy config `{design: {type: 'modal', headline: 'Hi'}}` the
normalized headline is `{text: '', style: {}}` — `text` is the empty
default, NOT `'Hi'` as the claim states, because `mergeWithDefaults`
injects the template's default `content` object into `design`, which makes
the renderer's legacy fallback `design.content || {headline:
design.headline, ...}` take the `design.content` branch; the legacy
headline survives only as the ignored `design.headline` field.  For the
flat config `{type: 'top_bar'}` the claim's expectations hold: headline
text `''` and `type` preserved. -/
theorem rendererDesign_of_design (config dv : JValue)
    (h : jGet config "design" = some dv) (ht : jTruthy dv = true) :
    rendererDesign config = dv := by
  unfold rendererDesign
  rw [h]
  simp [ht]

theorem rendererDesign_of_no_design (config : JValue)
    (h : jGet config "design" = none) : rendererDesign config = config := by
  unfold rendererDesign
  rw [h]
  simp [jTruthy]

theorem rendererRawContent_of_content (design cv : JValue)
    (h : jGet design "content" = some cv) (ht : jTruthy cv = true) :
    rendererRawContent design = cv := by
  unfold rendererRawContent
  rw [h]
  simp [ht]

theorem rendererHeadline_eq (config : JValue) :
    rendererHeadline config
      = normalizeTextItem (jGet (rendererRawContent (rendererDesign config)) "headline") :=
  rfl

theorem merge_legacyHi_design :
    jGet (mergeWithDefaults legacyHiConfig none) "design"
      = some (.jobj (deepMergeFields MODAL_DEFAULTS
          [("type", JValue.jstr "modal"), ("headline", JValue.jstr "Hi")])) := by
  simp [mergeWithDefaults, mergeCore, legacyHiConfig, resolvedType, designTypeOf,
    getDefaults, jGet, jFields, jTruthy, assocGet, assocSet]

theorem legacy_merged_design_content :
    jGet (JValue.jobj (deepMergeFields MODAL_DEFAULTS
        [("type", JValue.jstr "modal"), ("headline", JValue.jstr "Hi")])) "content"
      = some (.jobj [("headline", .jstr ""), ("body", .jstr ""), ("image", .null)]) := by
  rw [jGet_jobj, deepMergeFields_eq]
  simp [deepMergeStep, MODAL_DEFAULTS, assocGet, assocSet, jFields, jTruthy]

theorem legacy_merged_design_headline :
    jGet (JValue.jobj (deepMergeFields MODAL_DEFAULTS
        [("type", JValue.jstr "modal"), ("headline", JValue.jstr "Hi")])) "headline"
      = some (.jstr "Hi") := by
  rw [jGet_jobj, deepMergeFields_eq]
  simp [deepMergeStep, MODAL_DEFAULTS, assocGet, assocSet, jFields, jTruthy]

theorem merge_flatTopBar_eq :
    mergeWithDefaults flatTopBarConfig none
      = .jobj (deepMergeFields TOP_BAR_DEFAULTS [("type", JValue.jstr "top_bar")]) := by
  simp [mergeWithDefaults, mergeCore, flatTopBarConfig, resolvedType, designTypeOf,
    getDefaults, jGet, jFields, jTruthy, assocGet]

theorem flat_merged_design :
    jGet (JValue.jobj (deepMergeFields TOP_BAR_DEFAULTS [("type", JValue.jstr "top_bar")]))
      "design" = none := by
  rw [jGet_jobj, deepMergeFields_eq]
  simp [deepMergeStep, TOP_BAR_DEFAULTS, assocGet, assocSet, jFields, jTruthy]

theorem flat_merged_content :
    jGet (JValue.jobj (deepMergeFields TOP_BAR_DEFAULTS [("type", JValue.jstr "top_bar")]))
      "content"
      = some (.jobj [("headline", .jstr ""), ("body", .jstr ""), ("image", .null)]) := by
  rw [jGet_jobj, deepMergeFields_eq]
  simp [deepMergeStep, TOP_BAR_DEFAULTS, assocGet, assocSet, jFields, jTruthy]

theorem flat_merged_type :
    jGet (JValue.jobj (deepMergeFields TOP_BAR_DEFAULTS [("type", JValue.jstr "top_bar")]))
      "type" = some (.jstr "top_bar") := by
  rw [jGet_jobj, deepMergeFields_eq]
  simp [deepMergeStep, TOP_BAR_DEFAULTS, assocGet, assocSet, jFields, jTruthy]

/-- C3.  Evaluation of the normalization pipeline (mergeWithDefaults
followed by the renderer's content extraction) at the claim's two inputs.
For the legacy config `{design: {type: 'modal', headline: 'Hi'}}` the
normalized headline is `{text: '', style: {}}` — `text` is the empty
default, NOT `'Hi'` as the claim states, because `mergeWithDefaults`
injects the template's default `content` object into `design`, which makes
the renderer's legacy fallback `design.content || {headline:
design.headline, ...}` take the `design.content` branch; the legacy
headline survives only as the ignored `design.headline` field.  For the
flat config `{type: 'top_bar'}` the claim's expectations hold: headline
text `''` (with `style` defined) and `type` preserved. -/
theorem normalize_legacy_flat_eval :
    rendererHeadline (mergeWithDefaults legacyHiConfig none)
        = .jobj [("text", .jstr ""), ("style", .jobj [])]
    ∧ jGet (rendererHeadline (mergeWithDefaults legacyHiConfig none)) "text"
        ≠ some (.jstr "Hi")
    ∧ jGet (rendererDesign (mergeWithDefaults legacyHiConfig none)) "headline"
        = some (.jstr "Hi")
    ∧ rendererHeadline (mergeWithDefaults flatTopBarConfig none)
        = .jobj [("text", .jstr ""), ("style", .jobj [])]
    ∧ jGet (mergeWithDefaults flatTopBarConfig none) "type" = some (.jstr "top_bar") := by
  have hdesign : rendererDesign (mergeWithDefaults legacyHiConfig none)
      = .jobj (deepMergeFields MODAL_DEFAULTS
          [("type", JValue.jstr "modal"), ("headline", JValue.jstr "Hi")]) :=
    rendererDesign_of_design _ _ merge_legacyHi_design rfl
  have hhead : rendererHeadline (mergeWithDefaults legacyHiConfig none)
      = .jobj [("text", .jstr ""), ("style", .jobj [])] := by
    rw [rendererHeadline_eq, hdesign,
      rendererRawContent_of_content _ _ legacy_merged_design_content rfl]
    rw [jGet_jobj]
    simp [assocGet, normalizeTextItem]
  have hflatdesign : rendererDesign (mergeWithDefaults flatTopBarConfig none)
      = mergeWithDefaults flatTopBarConfig none := by
    apply rendererDesign_of_no_design
    rw [merge_flatTopBar_eq]
    exact flat_merged_design
  have hflathead : rendererHeadline (mergeWithDefaults flatTopBarConfig none)
      = .jobj [("text", .jstr ""), ("style", .jobj [])] := by
    rw [rendererHeadline_eq, hflatdesign, merge_flatTopBar_eq,
      rendererRawContent_of_content _ _ flat_merged_content rfl]
    rw [jGet_jobj]
    simp [assocGet, normalizeTextItem]
  refine ⟨hhead, ?_, ?_, hflathead, ?_⟩
  · rw [hhead, jGet_jobj]
    simp [assocGet]
  · rw [hdesign]
    exact legacy_merged_design_headline
  · rw [merge_flatTopBar_eq]
    exact flat_merged_type

/-! ### Orchestrator boundary (SDK entry point)

`fetchPopupConfigs` wraps everything in `try`/`catch` and resolves to `[]`
on any failure; `processPopup` (the per-candidate evaluation) does NOT: it
reads `config.rules.frequency` with no optional chaining, and
`shouldShowPopup` / `setupTrigger` destructure their config argument
outside any `try`, so a candidate without `rules` (or without
`rules.frequency` / `rules.trigger`) raises a `TypeError` that propagates
to the caller (`init`'s loop).  The throwing property accesses are
modelled with `Except`. -/

structure FrequencyConfig where
  cap : String
deriving DecidableEq, Repr

structure TriggerConfig where
  ttype : String
  value : Rat
deriving DecidableEq, Repr

structure PopupRules where
  trigger : Option TriggerConfig
  frequency : Option FrequencyConfig
deriving DecidableEq, Repr

structure PopupCfg where
  id : String
  rules : Option PopupRules
deriving DecidableEq, Repr

/-- What the environment answers to the `fetch` call: a network failure, or
a response with a status and a JSON body (`none` = body fails to parse). -/
inductive FetchOutcome where
  | netError
  | response (status : Nat) (body : Option (List PopupCfg))
deriving DecidableEq, Repr

/-- `fetchPopupConfigs(apiKey)`: its `try` block throws on network failure,
non-2xx status (`!response.ok`) or a bad JSON body, and the `catch` logs
and resolves to `[]`. -/
def fetchPopupConfigs (outcome : FetchOutcome) : List PopupCfg :=
  match outcome with
  | .netError => []
  | .response status body =>
      if 200 ≤ status ∧ status ≤ 299 then
        match body with
        | some cfgs => cfgs
        | none => []
      else []

/-- `shouldShowPopup` as called: `const { cap } = frequencyConfig` throws a
`TypeError` when the frequency config is `undefined`. -/
def jsShouldShowPopup (popupId : String) (freq : Option FrequencyConfig) (avail : Bool)
    (s : Storage) (now : Nat) : Except String Bool :=
  match freq with
  | none => .error "TypeError: cannot destructure property cap of undefined"
  | some f => .ok (shouldShowPopup popupId f.cap avail s now)

/-- `setupTrigger` as called: `const { type, value } = triggerConfig`
throws when the trigger config is `undefined`. -/
def jsSetupTrigger (tc : Option TriggerConfig) (isTouchDevice : Bool) (sh y0 : Rat) :
    Except String TriggerState :=
  match tc with
  | none => .error "TypeError: cannot destructure property type of undefined"
  | some t => .ok (setupTrigger t.ttype t.value isTouchDevice sh y0)

/-- `processPopup(config)`: frequency gate then trigger arming.  The access
`config.rules.frequency` throws when `rules` is absent.  Returns `.ok none`
when the popup is skipped and `.ok (some state)` with the armed trigger
otherwise. -/
def processPopup (config : PopupCfg) (avail : Bool) (s : Storage) (now : Nat)
    (isTouchDevice : Bool) (sh y0 : Rat) : Except String (Option TriggerState) :=
  match config.rules with
  | none => .error "TypeError: cannot read properties of undefined (reading frequency)"
  | some r =>
      match jsShouldShowPopup config.id r.frequency avail s now with
      | .error e => .error e
      | .ok false => .ok none
      | .ok true =>
          match jsSetupTrigger r.trigger isTouchDevice sh y0 with
          | .error e => .error e
          | .ok st => .ok (some st)

/-- C5.  The claim that every boundary catches and degrades is FALSE for
`processPopup`: a candidate config without a `rules` object (or whose
`rules.frequency` is absent) makes `processPopup` raise a TypeError that
propagates to the caller, while the fetch boundary does catch (network
error, non-2xx status and bad JSON all degrade to `[]`) and the storage
boundary does catch (unavailable storage fails open and records
silently). -/
theorem processPopup_throws_on_missing_rules :
    processPopup ⟨"p", none⟩ true ⟨[], []⟩ 0 false 0 0
        = .error "TypeError: cannot read properties of undefined (reading frequency)"
    ∧ processPopup ⟨"p", some ⟨some ⟨"immediate", 0⟩, none⟩⟩ true ⟨[], []⟩ 0 false 0 0
        = .error "TypeError: cannot destructure property cap of undefined"
    ∧ fetchPopupConfigs .netError = []
    ∧ fetchPopupConfigs (.response 403 none) = []
    ∧ fetchPopupConfigs (.response 500 (some [⟨"p", none⟩])) = []
    ∧ fetchPopupConfigs (.response 200 (some [⟨"p", none⟩])) = [⟨"p", none⟩]
    ∧ shouldShowPopup "p" "once_ever" false ⟨[], []⟩ 0 = true
    ∧ recordPopupShown "p" "once_ever" false ⟨[], []⟩ 0 = ⟨[], []⟩ := by
  refine ⟨rfl, rfl, rfl, ?_, ?_, ?_, rfl, rfl⟩ <;> simp [fetchPopupConfigs]

/-! ### Heap semantics for the normalizer

The tree semantics above reproduces the VALUES `mergeWithDefaults`
produces, but cannot express in-place mutation of the caller's objects.
This section runs the same functions over an explicit JavaScript heap:
`JSVal` is an immediate value or a reference, `JSObj` an object (a plain
object's own fields or an array's element list), and `Heap` the store,
addressed by allocation index.  `deepMerge` allocates its result
(`{...target}`) and writes only into it — but arrays are assigned by
reference, so the merge result shares the caller's `buttons` array and its
element objects, and `applyBranding`'s button-preset writes go through that
sharing into the caller's raw config.  Recursion is fuelled (structurally,
so that runs on concrete inputs compute); the frame theorems below hold
for every fuel value. -/

inductive JSVal where
  | undef
  | null
  | jbool (b : Bool)
  | jnum (n : Int)
  | jstr (s : String)
  | ref (a : Nat)
deriving DecidableEq, Repr

inductive JSObj where
  | objFields (fs : List (String × JSVal))
  | arrElems (es : List JSVal)
deriving DecidableEq, Repr

structure Heap where
  objs : List JSObj
deriving DecidableEq, Repr

def heapGet (h : Heap) (a : Nat) : Option JSObj := h.objs.get? a

def heapSize (h : Heap) : Nat := h.objs.length

def heapAlloc (h : Heap) (o : JSObj) : Nat × Heap := (h.objs.length, ⟨h.objs ++ [o]⟩)

def heapSetObj (h : Heap) (a : Nat) (o : JSObj) : Heap := ⟨h.objs.set a o⟩

def jsTruthyH : JSVal → Bool
  | .undef => false
  | .null => false
  | .jbool b => b
  | .jnum n => n != 0
  | .jstr s => s != ""
  | .ref _ => true

def isNullishH (v : JSVal) : Bool := v == .undef || v == .null

/-- Own enumerable fields of a value: those of the referenced plain object;
primitives and arrays contribute none (arrays have index keys which no
caller here iterates). -/
def fieldsAtH (h : Heap) (v : JSVal) : List (String × JSVal) :=
  match v with
  | .ref a =>
      match heapGet h a with
      | some (.objFields fs) => fs
      | _ => []
  | _ => []

/-- Property read; `undefined` for an absent key or a non-object base. -/
def getPropH (h : Heap) (v : JSVal) (k : String) : JSVal :=
  match assocGet (fieldsAtH h v) k with
  | some w => w
  | none => (.undef)

/-- Property write through a reference; a write through a primitive is
dropped (observably nothing happens to the heap). -/
def setPropH (h : Heap) (v : JSVal) (k : String) (w : JSVal) : Heap :=
  match v with
  | .ref a =>
      match heapGet h a with
      | some (.objFields fs) => heapSetObj h a (.objFields (assocSet fs k w))
      | _ => h
  | _ => h

/-- `typeof v === 'object' && !Array.isArray(v)` for the non-null values
reaching `deepMerge`'s recursion test. -/
def isMergeableObjH (h : Heap) (v : JSVal) : Bool :=
  match v with
  | .ref a =>
      match heapGet h a with
      | some (.objFields _) => true
      | _ => false
  | _ => false

theorem heapSize_alloc (h : Heap) (o : JSObj) :
    heapSize (heapAlloc h o).2 = heapSize h + 1 := by
  simp [heapSize, heapAlloc]

theorem heapGet_alloc_lt (h : Heap) (o : JSObj) (a : Nat) (ha : a < heapSize h) :
    heapGet (heapAlloc h o).2 a = heapGet h a := by
  simp only [heapGet, heapAlloc]
  exact List.get?_append ha

theorem heapSize_setObj (h : Heap) (a : Nat) (o : JSObj) :
    heapSize (heapSetObj h a o) = heapSize h := by
  simp [heapSize, heapSetObj]

theorem heapGet_setObj_ne (h : Heap) (a : Nat) (o : JSObj) (a2 : Nat) (hne : a2 ≠ a) :
    heapGet (heapSetObj h a o) a2 = heapGet h a2 := by
  simp only [heapGet, heapSetObj]
  exact List.get?_set_ne _ _ (Ne.symm hne)

theorem heapSize_setPropH (h : Heap) (v : JSVal) (k : String) (w : JSVal) :
    heapSize (setPropH h v k w) = heapSize h := by
  unfold setPropH
  split
  · split
    · rw [heapSize_setObj]
    · rfl
  · rfl

theorem heapGet_setPropH_ne (h : Heap) (a : Nat) (k : String) (w : JSVal) (a2 : Nat)
    (hne : a2 ≠ a) :
    heapGet (setPropH h (.ref a) k w) a2 = heapGet h a2 := by
  simp only [setPropH]
  split
  · exact heapGet_setObj_ne h a _ a2 hne
  · rfl

/-- One iteration of the `for (const key in source)` loop of `deepMerge`,
abstracted over the recursive merge call `dm`: skip null/undefined, merge
plain objects against `target[key] || {}` (a falsy target entry behaves as
the fresh empty object), otherwise assign — arrays included, by
reference. -/
def dmStep (dm : Heap → JSVal → JSVal → JSVal × Heap) (tf : List (String × JSVal))
    (ra : Nat) (hAcc : Heap) (kv : String × JSVal) : Heap :=
  if kv.2 == JSVal.null || kv.2 == JSVal.undef then hAcc
  else if isMergeableObjH hAcc kv.2 then
    let tv : JSVal :=
      match assocGet tf kv.1 with
      | some w => if jsTruthyH w then w else JSVal.undef
      | none => JSVal.undef
    let mh := dm hAcc tv kv.2
    setPropH mh.2 (.ref ra) kv.1 mh.1
  else setPropH hAcc (.ref ra) kv.1 kv.2

/-- `deepMerge(target, source)` over the heap: allocate
`const result = {...target}`, then run the source loop writing into the
fresh result object.  Fuelled so that runs on concrete inputs compute;
the frame theorems hold for every fuel. -/
def deepMergeH : Nat → Heap → JSVal → JSVal → JSVal × Heap
  | 0, h, _, _ => (.undef, h)
  | fuel + 1, h, target, source =>
      let tf := fieldsAtH h target
      let ah := heapAlloc h (.objFields tf)
      (.ref ah.1,
        (fieldsAtH h source).foldl
          (dmStep (fun hh tt ss => deepMergeH fuel hh tt ss) tf ah.1) ah.2)

theorem dmStep_frame (dm : Heap → JSVal → JSVal → JSVal × Heap)
    (tf : List (String × JSVal)) (ra : Nat)
    (hdm : ∀ hh tt ss, heapSize hh ≤ heapSize (dm hh tt ss).2
      ∧ ∀ a, a < heapSize hh → heapGet (dm hh tt ss).2 a = heapGet hh a)
    (hAcc : Heap) (kv : String × JSVal) :
    heapSize hAcc ≤ heapSize (dmStep dm tf ra hAcc kv)
    ∧ ∀ a, a < heapSize hAcc → a ≠ ra →
        heapGet (dmStep dm tf ra hAcc kv) a = heapGet hAcc a := by
  unfold dmStep
  split_ifs with h1 h2
  · exact ⟨le_refl _, fun a _ _ => rfl⟩
  · constructor
    · rw [heapSize_setPropH]
      exact (hdm hAcc _ kv.2).1
    · intro a ha hra
      rw [heapGet_setPropH_ne _ _ _ _ _ hra]
      exact (hdm hAcc _ kv.2).2 a ha
  · constructor
    · rw [heapSize_setPropH]
    · intro a ha hra
      rw [heapGet_setPropH_ne _ _ _ _ _ hra]

theorem foldl_dmStep_frame (dm : Heap → JSVal → JSVal → JSVal × Heap)
    (tf : List (String × JSVal)) (ra : Nat)
    (hdm : ∀ hh tt ss, heapSize hh ≤ heapSize (dm hh tt ss).2
      ∧ ∀ a, a < heapSize hh → heapGet (dm hh tt ss).2 a = heapGet hh a)
    (l : List (String × JSVal)) :
    ∀ hAcc : Heap,
      heapSize hAcc ≤ heapSize (l.foldl (dmStep dm tf ra) hAcc)
      ∧ ∀ a, a < heapSize hAcc → a ≠ ra →
          heapGet (l.foldl (dmStep dm tf ra) hAcc) a = heapGet hAcc a := by
  induction l with
  | nil => intro hAcc; exact ⟨le_refl _, fun a _ _ => rfl⟩
  | cons kv rest ih =>
      intro hAcc
      obtain ⟨hs, hg⟩ := dmStep_frame dm tf ra hdm hAcc kv
      obtain ⟨hs2, hg2⟩ := ih (dmStep dm tf ra hAcc kv)
      rw [List.foldl_cons]
      refine ⟨le_trans hs hs2, fun a ha hra => ?_⟩
      rw [hg2 a (lt_of_lt_of_le ha hs) hra, hg a ha hra]

/-- `deepMerge` allocates its result and never writes to a pre-existing
address: every object present in the heap before the call is unchanged
after it. -/
theorem deepMergeH_frame (fuel : Nat) : ∀ (h : Heap) (t s : JSVal),
    heapSize h ≤ heapSize (deepMergeH fuel h t s).2
    ∧ ∀ a, a < heapSize h → heapGet (deepMergeH fuel h t s).2 a = heapGet h a := by
  induction fuel with
  | zero => intro h t s; exact ⟨le_refl _, fun a _ => rfl⟩
  | succ fuel ih =>
      intro h t s
      simp only [deepMergeH]
      obtain ⟨hs, hg⟩ := foldl_dmStep_frame (fun hh tt ss => deepMergeH fuel hh tt ss)
        (fieldsAtH h t) (heapAlloc h (.objFields (fieldsAtH h t))).1
        (fun hh tt ss => ih hh tt ss) (fieldsAtH h s)
        (heapAlloc h (.objFields (fieldsAtH h t))).2
      constructor
      · refine le_trans ?_ hs
        rw [heapSize_alloc]
        omega
      · intro a ha
        have hasz : a < heapSize (heapAlloc h (.objFields (fieldsAtH h t))).2 := by
          rw [heapSize_alloc]; omega
        have hane : a ≠ (heapAlloc h (.objFields (fieldsAtH h t))).1 := by
          have : (heapAlloc h (.objFields (fieldsAtH h t))).1 = heapSize h := rfl
          omega
        rw [hg a hasz hane]
        exact heapGet_alloc_lt h _ a ha

/-- Step functions materializing a JSON tree into the heap. -/
def allocJListStep (al : Heap → JValue → JSVal × Heap)
    (acc : List JSVal × Heap) (e : JValue) : List JSVal × Heap :=
  let vh := al acc.2 e
  (acc.1 ++ [vh.1], vh.2)

def allocJFieldsStep (al : Heap → JValue → JSVal × Heap)
    (acc : List (String × JSVal) × Heap) (kv : String × JValue) :
    List (String × JSVal) × Heap :=
  let vh := al acc.2 kv.2
  (acc.1 ++ [(kv.1, vh.1)], vh.2)

/-- Materialize a JSON tree (such as a default template literal) into the
heap, allocating bottom-up. -/
def allocJ : Nat → Heap → JValue → JSVal × Heap
  | 0, h, _ => (.undef, h)
  | fuel + 1, h, v =>
      match v with
      | .null => (.null, h)
      | .jbool b => (.jbool b, h)
      | .jnum n => (.jnum n, h)
      | .jstr s => (.jstr s, h)
      | .jarr es =>
          let lh := es.foldl (allocJListStep (fun hh vv => allocJ fuel hh vv)) ([], h)
          let ah := heapAlloc lh.2 (.arrElems lh.1)
          (.ref ah.1, ah.2)
      | .jobj fs =>
          let lh := fs.foldl (allocJFieldsStep (fun hh vv => allocJ fuel hh vv)) ([], h)
          let ah := heapAlloc lh.2 (.objFields lh.1)
          (.ref ah.1, ah.2)

theorem foldl_heapStep_frame {β γ : Type} (f : (β × Heap) → γ → (β × Heap))
    (hf : ∀ acc e, heapSize acc.2 ≤ heapSize (f acc e).2
      ∧ ∀ a, a < heapSize acc.2 → heapGet (f acc e).2 a = heapGet acc.2 a)
    (l : List γ) :
    ∀ acc : β × Heap,
      heapSize acc.2 ≤ heapSize (l.foldl f acc).2
      ∧ ∀ a, a < heapSize acc.2 → heapGet (l.foldl f acc).2 a = heapGet acc.2 a := by
  induction l with
  | nil => intro acc; exact ⟨le_refl _, fun a _ => rfl⟩
  | cons e rest ih =>
      intro acc
      obtain ⟨hs, hg⟩ := hf acc e
      obtain ⟨hs2, hg2⟩ := ih (f acc e)
      rw [List.foldl_cons]
      refine ⟨le_trans hs hs2, fun a ha => ?_⟩
      rw [hg2 a (lt_of_lt_of_le ha hs), hg a ha]

theorem allocJ_frame (fuel : Nat) : ∀ (h : Heap) (v : JValue),
    heapSize h ≤ heapSize (allocJ fuel h v).2
    ∧ ∀ a, a < heapSize h → heapGet (allocJ fuel h v).2 a = heapGet h a := by
  induction fuel with
  | zero => intro h v; exact ⟨le_refl _, fun a _ => rfl⟩
  | succ fuel ih =>
      intro h v
      rcases v with _ | b | n | s | es | fs
      · exact ⟨le_refl _, fun a _ => rfl⟩
      · exact ⟨le_refl _, fun a _ => rfl⟩
      · exact ⟨le_refl _, fun a _ => rfl⟩
      · exact ⟨le_refl _, fun a _ => rfl⟩
      · simp only [allocJ]
        obtain ⟨hs, hg⟩ := foldl_heapStep_frame
          (allocJListStep (fun hh vv => allocJ fuel hh vv))
          (fun acc e => by
            obtain ⟨h1, h2⟩ := ih acc.2 e
            exact ⟨h1, h2⟩)
          es (([], h) : List JSVal × Heap)
        constructor
        · refine le_trans hs ?_
          rw [heapSize_alloc]
          omega
        · intro a ha
          rw [heapGet_alloc_lt _ _ a (lt_of_lt_of_le ha hs)]
          exact hg a ha
      · simp only [allocJ]
        obtain ⟨hs, hg⟩ := foldl_heapStep_frame
          (allocJFieldsStep (fun hh vv => allocJ fuel hh vv))
          (fun acc kv => by
            obtain ⟨h1, h2⟩ := ih acc.2 kv.2
            exact ⟨h1, h2⟩)
          fs (([], h) : List (String × JSVal) × Heap)
        constructor
        · refine le_trans hs ?_
          rw [heapSize_alloc]
          omega
        · intro a ha
          rw [heapGet_alloc_lt _ _ a (lt_of_lt_of_le ha hs)]
          exact hg a ha

/-- One guarded branding write over the heap:
`if (src.srcKey && !tgt.tgtKey) tgt.tgtKey = src.srcKey`. -/
def condAssignH (h : Heap) (src : JSVal) (srcKey : String) (tgt : JSVal)
    (tgtKey : String) : Heap :=
  if jsTruthyH (getPropH h src srcKey) && !(jsTruthyH (getPropH h tgt tgtKey)) then
    setPropH h tgt tgtKey (getPropH h src srcKey)
  else h

/-- The `buttons.forEach((btn, index) => ...)` body over the heap: writes
into the BUTTON OBJECT itself, which is shared by reference with the
caller's raw config. -/
def brandButtonH (h : Heap) (branding bp : JSVal) (index : Nat) (btn : JSVal) : Heap :=
  let h1 :=
    if !(jsTruthyH (getPropH h btn "style")) then
      let ah := heapAlloc h (.objFields [])
      setPropH ah.2 btn "style" (.ref ah.1)
    else h
  let st := getPropH h1 btn "style"
  if index == 0 then
    condAssignH (condAssignH (condAssignH (condAssignH h1
      bp "background" st "backgroundColor")
      bp "textColor" st "textColor")
      bp "borderRadius" st "borderRadius")
      bp "shadow" st "boxShadow"
  else
    let secondaryBtn := getPropH h1 (getPropH h1 branding "components") "buttonSecondary"
    if jsTruthyH secondaryBtn then
      condAssignH (condAssignH (condAssignH h1
        secondaryBtn "background" st "backgroundColor")
        secondaryBtn "textColor" st "textColor")
        secondaryBtn "borderRadius" st "borderRadius"
    else h1

def brandButtonsH (branding bp : JSVal) : Nat → List JSVal → Heap → Heap
  | _, [], h => h
  | i, btn :: rest, h => brandButtonsH branding bp (i + 1) rest (brandButtonH h branding bp i btn)

/-- `applyBranding(config, branding)` over the heap.  `const result =
{...config}` is a fresh shallow copy, but `style`, `buttons` (and the
button elements), and `content` may be references shared with the merge
result — and through array assignment, with the caller's raw config. -/
def applyBrandingH (h : Heap) (config branding : JSVal) : JSVal × Heap :=
  if !(jsTruthyH branding) then (config, h)
  else
    let ah := heapAlloc h (.objFields (fieldsAtH h config))
    let rv : JSVal := .ref ah.1
    let h1 := ah.2
    -- const style = result.style || result.design?.style || {}
    let s1 := getPropH h1 rv "style"
    let sh :=
      if jsTruthyH s1 then (s1, h1)
      else
        let des := getPropH h1 rv "design"
        let s2 := if isNullishH des then JSVal.undef else getPropH h1 des "style"
        if jsTruthyH s2 then (s2, h1)
        else
          let sa := heapAlloc h1 (.objFields [])
          (JSVal.ref sa.1, sa.2)
    let styleV := sh.1
    let h2 := sh.2
    -- const buttons = result.buttons || result.design?.buttons || []
    let b1 := getPropH h2 rv "buttons"
    let bh :=
      if jsTruthyH b1 then (b1, h2)
      else
        let des := getPropH h2 rv "design"
        let b2 := if isNullishH des then JSVal.undef else getPropH h2 des "buttons"
        if jsTruthyH b2 then (b2, h2)
        else
          let ba := heapAlloc h2 (.arrElems [])
          (JSVal.ref ba.1, ba.2)
    let buttonsV := bh.1
    let h3 := bh.2
    -- colors
    let h4 :=
      if jsTruthyH (getPropH h3 branding "colors") then
        let h4a := condAssignH h3 (getPropH h3 branding "colors") "background"
            styleV "backgroundColor"
        condAssignH h4a (getPropH h4a branding "colors") "textPrimary" styleV "textColor"
      else h3
    -- typography?.fontFamilies?.primary
    let ty := getPropH h4 branding "typography"
    let ff := if isNullishH ty then JSVal.undef else getPropH h4 ty "fontFamilies"
    let pv := if isNullishH ff then JSVal.undef else getPropH h4 ff "primary"
    let h5 :=
      if jsTruthyH pv && !(jsTruthyH (getPropH h4 styleV "fontFamily")) then
        setPropH h4 styleV "fontFamily" pv
      else h4
    -- spacing?.borderRadius
    let sp := getPropH h5 branding "spacing"
    let brv := if isNullishH sp then JSVal.undef else getPropH h5 sp "borderRadius"
    let h6 :=
      if jsTruthyH brv && !(jsTruthyH (getPropH h5 styleV "borderRadius")) then
        setPropH h5 styleV "borderRadius" brv
      else h5
    -- components?.buttonPrimary && buttons.length > 0
    let comps := getPropH h6 branding "components"
    let bp := if isNullishH comps then JSVal.undef else getPropH h6 comps "buttonPrimary"
    let btnEls : List JSVal :=
      match buttonsV with
      | .ref a =>
          match heapGet h6 a with
          | some (.arrElems es) => es
          | _ => []
      | _ => []
    let h7 :=
      if jsTruthyH bp && decide (0 < btnEls.length) then
        brandButtonsH branding bp 0 btnEls h6
      else h6
    -- images?.logo
    let im := getPropH h7 branding "images"
    let lg := if isNullishH im then JSVal.undef else getPropH h7 im "logo"
    let h9 :=
      if jsTruthyH lg then
        let c1 := getPropH h7 rv "content"
        let ch :=
          if jsTruthyH c1 then (c1, h7)
          else
            let des := getPropH h7 rv "design"
            let c2 := if isNullishH des then JSVal.undef else getPropH h7 des "content"
            if jsTruthyH c2 then (c2, h7)
            else
              let ca := heapAlloc h7 (.objFields [])
              (JSVal.ref ca.1, ca.2)
        let contentV := ch.1
        let h8 := ch.2
        let h8b :=
          if !(jsTruthyH (getPropH h8 contentV "image")) then
            let ia := heapAlloc h8
              (.objFields [("url", lg), ("position", .jstr "left"), ("height", .jstr "24px")])
            setPropH ia.2 contentV "image" (.ref ia.1)
          else h8
        if jsTruthyH (getPropH h8b rv "content") then setPropH h8b rv "content" contentV
        else if jsTruthyH (getPropH h8b rv "design") then
          setPropH h8b (getPropH h8b rv "design") "content" contentV
        else h8b
      else h7
    -- write style back
    let h10 :=
      if jsTruthyH (getPropH h9 rv "style") then setPropH h9 rv "style" styleV
      else if jsTruthyH (getPropH h9 rv "design") then
        setPropH h9 (getPropH h9 rv "design") "style" styleV
      else h9
    -- write buttons back
    let h11 :=
      if jsTruthyH (getPropH h10 rv "buttons") then setPropH h10 rv "buttons" buttonsV
      else if jsTruthyH (getPropH h10 rv "design") then
        setPropH h10 (getPropH h10 rv "design") "buttons" buttonsV
      else h10
    (rv, h11)

/-- `getDefaults` as reached from the heap-resolved type value. -/
def getDefaultsHV (t : JSVal) : JValue :=
  match t with
  | .jstr "top_bar" => .jobj TOP_BAR_DEFAULTS
  | .jstr "modal" => .jobj MODAL_DEFAULTS
  | _ => .jobj MODAL_DEFAULTS

/-- `mergeWithDefaults(config, branding)` over the heap. -/
def mergeWithDefaultsH (fuel : Nat) (h : Heap) (config branding : JSVal) : JSVal × Heap :=
  -- const type = config.type || config.design?.type
  let t1 := getPropH h config "type"
  let des0 := getPropH h config "design"
  let t := if jsTruthyH t1 then t1
    else if isNullishH des0 then JSVal.undef else getPropH h des0 "type"
  -- the template object (module-level literal, materialized here)
  let dh := allocJ fuel h (getDefaultsHV t)
  let dv := dh.1
  let h1 := dh.2
  let des1 := getPropH h1 config "design"
  let rh :=
    if jsTruthyH des1 then
      -- { ...config, design: deepMerge(defaults, config.design) }
      let cfFields := fieldsAtH h1 config
      let mh := deepMergeH fuel h1 dv des1
      let ah := heapAlloc mh.2 (.objFields (assocSet cfFields "design" mh.1))
      (JSVal.ref ah.1, ah.2)
    else deepMergeH fuel h1 dv config
  if jsTruthyH branding then applyBrandingH rh.2 rh.1 branding else rh

/-- With no branding supplied (`branding = null`), `mergeWithDefaults`
mutates nothing: every pre-existing heap object — in particular every
object of the caller-supplied raw config — is unchanged, for every fuel. -/
theorem mergeWithDefaultsH_null_frame (fuel : Nat) (h : Heap) (config : JSVal)
    (a : Nat) (ha : a < heapSize h) :
    heapGet (mergeWithDefaultsH fuel h config .null).2 a = heapGet h a := by
  unfold mergeWithDefaultsH
  simp only [jsTruthyH, Bool.false_eq_true, if_false]
  generalize getDefaultsHV _ = gv
  obtain ⟨hs1, hg1⟩ := allocJ_frame fuel h gv
  split_ifs with hdes
  · obtain ⟨hs2, hg2⟩ := deepMergeH_frame fuel (allocJ fuel h gv).2 (allocJ fuel h gv).1
      (getPropH (allocJ fuel h gv).2 config "design")
    rw [heapGet_alloc_lt _ _ a (by omega), hg2 a (by omega), hg1 a ha]
  · obtain ⟨hs2, hg2⟩ := deepMergeH_frame fuel (allocJ fuel h gv).2 (allocJ fuel h gv).1 config
    rw [hg2 a (by omega), hg1 a ha]

/-- The style fields the modal path of `PopupRenderer` reads (closeIconColor,
fontFamily, backgroundColor, textColor, borderRadius, boxShadow, border,
padding, textAlign, overlayColor). -/
def rendererStyleReads : List String :=
  ["closeIconColor", "fontFamily", "backgroundColor", "textColor",
   "borderRadius", "boxShadow", "border", "padding", "textAlign", "overlayColor"]

/-- Merging an empty config picks the modal template and returns it
unchanged. -/
theorem mergeCore_empty : mergeCore (.jobj []) = .jobj MODAL_DEFAULTS := by
  unfold mergeCore
  simp only [jGet, jFields, assocGet, deepMergeFields_eq, deepMergeStep_nil]
  rfl

/-- Caller heap for the mutation run: the raw config at address 2 owns a
buttons array (address 1) holding one button object (address 0); the
branding at address 5 carries a buttonPrimary preset (address 3) inside
its components object (address 4). -/
def c4Heap : Heap :=
  ⟨[.objFields [("text", .jstr "Go")],
    .arrElems [.ref 0],
    .objFields [("buttons", .ref 1)],
    .objFields [("background", .jstr "#fff")],
    .objFields [("buttonPrimary", .ref 3)],
    .objFields [("components", .ref 4)]]⟩

def c4Run : Heap := (mergeWithDefaultsH 40 c4Heap (.ref 2) (.ref 5)).2

/-- C4 counterexample: `mergeWithDefaults` with a branding that carries a
buttonPrimary preset mutates the caller-supplied raw config in place —
`deepMerge` assigns the config's buttons array by reference, and
`applyBranding`'s `btn.style = {}` writes into the caller's own button
object (address 0), which the merge never touched.  Moreover the result is
not fully populated for the renderer: `textAlign` is among the style fields
the modal renderer reads, yet merging even the empty config leaves it
absent from the result's style object. -/
theorem branding_mutates_caller_config :
    heapGet c4Run 0 ≠ heapGet c4Heap 0 ∧
    "textAlign" ∈ rendererStyleReads ∧
    ∃ sf, jGet (mergeCore (.jobj [])) "style" = some (.jobj sf) ∧
      assocGet sf "textAlign" = none := by
  refine ⟨by decide, by decide, ?_⟩
  rw [mergeCore_empty, jGet_jobj, MODAL_DEFAULTS_style]
  exact ⟨_, rfl, rfl⟩

/-- C4 (amended): with no branding supplied, `mergeWithDefaults` mutates
nothing — every pre-existing heap object, in particular every nested object
of the caller's raw config, is unchanged after the call (for every fuel);
and for a flat config the merge drops no template key: every field of the
chosen defaults template is present in the merged result. -/
theorem mergeWithDefaults_no_branding_no_mutation (fuel : Nat) (h : Heap)
    (config : JSVal) (a : Nat) (ha : a < heapSize h) :
    heapGet (mergeWithDefaultsH fuel h config .null).2 a = heapGet h a ∧
    ∀ (cf : List (String × JValue)) (k : String), assocGet cf "design" = none →
      (assocGet (getDefaults (resolvedType (.jobj cf))) k).isSome →
      (jGet (mergeCore (.jobj cf)) k).isSome := by
  refine ⟨mergeWithDefaultsH_null_frame fuel h config a ha, ?_⟩
  intro cf k hdes hk
  have h1 : jGet (.jobj cf) "design" = none := by rw [jGet_jobj]; exact hdes
  unfold mergeCore
  simp only [h1, jFields, deepMergeFields_eq, jGet_jobj]
  exact assocGet_deepMergeStep_isSome _ cf k _ hk

def c4NullHeap : Heap := ⟨[.objFields [("text", .jstr "Go")]]⟩

theorem mergeWithDefaults_no_branding_no_mutation_witness :
    0 < heapSize c4NullHeap ∧
    (heapGet (mergeWithDefaultsH 10 c4NullHeap (.ref 0) .null).2 0 = heapGet c4NullHeap 0 ∧
     ∀ (cf : List (String × JValue)) (k : String), assocGet cf "design" = none →
      (assocGet (getDefaults (resolvedType (.jobj cf))) k).isSome →
      (jGet (mergeCore (.jobj cf)) k).isSome) :=
  ⟨by decide, mergeWithDefaults_no_branding_no_mutation 10 c4NullHeap (.ref 0) 0 (by decide)⟩

end PopupsDev
